import Mathlib

/-!
T-Rex runner: the character controller of `src/objects/t_rex.c`

A shallow embedding of the character controller.  The C globals (`trex`, the
function pointer `OnStartedRunning`) and the observable effects (the callback
invocations and `PlaySound`) are gathered in one record, `Game`, which every
embedded function takes and returns.

Conventions of the embedding.

* `int` values are `Int`.  Signed `int` arithmetic whose overflow C leaves
  undefined is written with the mathematical operation; the one unsigned
  operation of the file (`trex.time += delta_time`, computed in `uint32_t`)
  wraps explicitly, see `wrapInt32`.
* `double` values are exact rationals (`ℚ`): rounding, infinities and NaN are
  not represented.  The conversion of a `double` to `int` is truncation toward
  zero, `truncToInt`.
* `uint32_t delta_time` is a `Nat`.
* The collaborators `IsKeyDown`, `GetTicks` and `rand` are read from an `Env`
  record holding what they return during one call.
* The macros of `globals.h` and the sprite table of `spritesheet.h` are not
  part of the sources at hand; they are the fields of the parameter `Globals`.
* Of the obstacles and the horizon only the records of `obstacle.h` and the
  declarations of `horizon.h` are at hand; the operations the nearest-obstacle
  queries rest on are modelled from the design document and marked as such.
-/

namespace TRexRunner

/-! ## Data model -/

/-- Modelled from the spec: `Point` is declared in `sys/utilities.h`, which is
not among the sources; the world position is a pair of integers (the spec's
"integer position type"). -/
structure Point where
  x : Int
  y : Int
deriving DecidableEq

/-- Modelled from the spec: `Rectangle` is declared in `sys/utilities.h`, which
is not among the sources; the spec gives it as integer-valued
`{x, y, width, height}`. -/
structure Rectangle where
  x : Int
  y : Int
  width : Int
  height : Int
deriving DecidableEq

/-- The record `AnimationFrames` of `sys/graphics.h`: `int frames[10]`, `int len`,
`double ms_per_frame`. -/
structure AnimationFrames where
  frames : List Int
  len : Int
  ms_per_frame : ℚ
deriving DecidableEq

/-- The record `CollisionSet` of `sys/graphics.h`: `int len`, `Rectangle rects[10]`. -/
structure CollisionSet where
  len : Int
  rects : List Rectangle
deriving DecidableEq

/-- Modelled from the spec: the enumeration `TRexState` is declared in `t_rex.h`,
which is not among the sources; the enumerators are taken in the order the spec
lists them, which is also the order of the comments in `trex_animation_frames`. -/
inductive TRexState where
  | T_REX_WAITING
  | T_REX_RUNNING
  | T_REX_JUMPING
  | T_REX_DUCKING
  | T_REX_CRASHED
deriving DecidableEq

open TRexState

/-- The integer value of an enumerator, used to index `trex_animation_frames`. -/
def TRexState.toNat : TRexState → Nat
  | T_REX_WAITING => 0
  | T_REX_RUNNING => 1
  | T_REX_JUMPING => 2
  | T_REX_DUCKING => 3
  | T_REX_CRASHED => 4

/-- The record `TRex` of `t_rex.c`, field for field. -/
structure TRex where
  state : TRexState
  sprite_def : Point
  pos : Point
  anim_frame : AnimationFrames
  jump_velocity : ℚ
  blink_delay : Int
  width : Int
  height : Int
  ducking_width : Int
  time : Int
  anim_start_time : Int
  curr_frame : Int
  ground_pos : Int
  min_jump_height : Int
  did_start_running : Bool
  speed_drop : Bool
  reached_min_height : Bool
deriving DecidableEq

/-- The constants `t_rex.c` takes from `globals.h` and `spritesheet.h`, neither of
which is among the sources.  Pixel quantities are integers, the coefficients of
the jump are `double`s. -/
structure Globals where
  WINDOW_HEIGHT : Int
  GROUND_OFFSET : Int
  MIN_JUMP_HEIGHT : Int
  MAX_JUMP_HEIGHT : Int
  INITIAL_JUMP_VELOCITY : ℚ
  DROP_VELOCITY : ℚ
  GRAVITY : ℚ
  SPEED_DROP_COEFFICIENT : ℚ
  sprite_definitions_TREX : Point

/-- What the collaborators return during one call of `InitTRex` or `UpdateTRex`:
the three keys read by `IsKeyDown`, the value of the first `GetTicks()` of the
call, the value of the `GetTicks()` inside `Blink`, and the value of `rand()`. -/
structure Env where
  key_up : Bool
  key_space : Bool
  key_down : Bool
  ticks : Int
  ticks_in_blink : Int
  rand : Int

/-- An observable effect of the controller: a call of the function stored in
`OnStartedRunning` (identified by a number), or `PlaySound(SFX_PRESS)`. -/
inductive Event where
  | started_running (callback : Nat)
  | sound_press
deriving DecidableEq

/-- The mutable globals of `t_rex.c` together with the trace of effects:
`trex`, the function pointer `OnStartedRunning` (`none` is the null pointer),
and the effects so far, oldest first. -/
structure Game where
  trex : TRex
  OnStartedRunning : Option Nat
  events : List Event
deriving DecidableEq

/-! ## Machine arithmetic -/

/-- The `int` that a 32-bit unsigned result converts to: the representative of
`z` modulo `2^32` in `[-2^31, 2^31)`. -/
def wrapInt32 (z : Int) : Int := (z + 2 ^ 31) % 2 ^ 32 - 2 ^ 31

/-- Conversion of a `double` to `int`: truncation toward zero. -/
def truncToInt (q : ℚ) : Int := if 0 ≤ q then ⌊q⌋ else ⌈q⌉

/-! ## Constant tables -/

/-- The constant `BLINK_TIMING`. -/
def BLINK_TIMING : Int := 7000

/-- The table `trex_animation_frames`; the unlisted entries of `frames` are zero
and each `ms_per_frame` is an integer quotient stored in a `double`. -/
def trex_animation_frames : List AnimationFrames :=
  [ { frames := [44, 0, 0, 0, 0, 0, 0, 0, 0, 0], len := 2,
      ms_per_frame := ((1000 / 3 : Int) : ℚ) },
    { frames := [88, 132, 0, 0, 0, 0, 0, 0, 0, 0], len := 2,
      ms_per_frame := ((1000 / 12 : Int) : ℚ) },
    { frames := [0, 0, 0, 0, 0, 0, 0, 0, 0, 0], len := 1,
      ms_per_frame := ((1000 / 60 : Int) : ℚ) },
    { frames := [264, 323, 0, 0, 0, 0, 0, 0, 0, 0], len := 2,
      ms_per_frame := ((1000 / 8 : Int) : ℚ) },
    { frames := [220, 0, 0, 0, 0, 0, 0, 0, 0, 0], len := 1,
      ms_per_frame := ((1000 / 60 : Int) : ℚ) } ]

/-- The entry `trex_animation_frames[state]`. -/
def animationFramesOf (state : TRexState) : AnimationFrames :=
  trex_animation_frames.getD state.toNat
    { frames := [], len := 0, ms_per_frame := 0 }

/-- The all-zero rectangle that fills the unlisted entries of a `rects` array. -/
def zeroRect : Rectangle := { x := 0, y := 0, width := 0, height := 0 }

/-- The table `trex_collision_sets`: entry 0 is the ducking shape, entry 1 the
running shape. -/
def trex_collision_sets : List CollisionSet :=
  [ { len := 1,
      rects := [ { x := 1, y := 18, width := 55, height := 25 },
                 zeroRect, zeroRect, zeroRect, zeroRect, zeroRect,
                 zeroRect, zeroRect, zeroRect, zeroRect ] },
    { len := 6,
      rects := [ { x := 22, y := 0, width := 17, height := 16 },
                 { x := 1, y := 18, width := 30, height := 9 },
                 { x := 10, y := 35, width := 14, height := 8 },
                 { x := 1, y := 24, width := 29, height := 5 },
                 { x := 5, y := 30, width := 21, height := 4 },
                 { x := 9, y := 34, width := 15, height := 4 },
                 zeroRect, zeroRect, zeroRect, zeroRect ] } ]

/-- The entry `trex_collision_sets[i]`. -/
def collisionSetAt (i : Nat) : CollisionSet :=
  trex_collision_sets.getD i { len := 0, rects := [] }

/-! ## The controller -/

/-- The function `IsJumpKeyPressed`: the up key or the space key is down. -/
def IsJumpKeyPressed (e : Env) : Bool := e.key_up || e.key_space

/-- The function `IsDuckKeyPressed`: the down key is down. -/
def IsDuckKeyPressed (e : Env) : Bool := e.key_down

/-- The function `SetBlinkDelay`: `1000 + rand() % (BLINK_TIMING - 1000)`, with the remainder
of C (truncated division). -/
def SetBlinkDelay (e : Env) (g : Game) : Game :=
  { g with trex :=
      { g.trex with blink_delay := 1000 + Int.tmod e.rand (BLINK_TIMING - 1000) } }

/-- The function `InitTRex`: every field of `trex` is assigned, then the blink
delay is drawn. -/
def InitTRex (G : Globals) (e : Env) (g : Game) : Game :=
  let ground_pos : Int := G.WINDOW_HEIGHT - 47 - G.GROUND_OFFSET
  SetBlinkDelay e
    { g with trex :=
        { state := T_REX_WAITING
          width := 44
          height := 47
          ducking_width := 59
          time := 0
          anim_start_time := e.ticks
          curr_frame := 1
          ground_pos := ground_pos
          min_jump_height := ground_pos - G.MIN_JUMP_HEIGHT
          sprite_def := G.sprite_definitions_TREX
          anim_frame := animationFramesOf T_REX_WAITING
          pos := { x := 50, y := ground_pos }
          jump_velocity := 0
          blink_delay := 0
          speed_drop := false
          reached_min_height := false
          did_start_running := false } }

/-- The function `SetTRexState`: sets the state, its animation and frame 0; on the first
entry into `T_REX_RUNNING` it sets `did_start_running` and calls
`OnStartedRunning` when that pointer is not null. -/
def SetTRexState (state : TRexState) (g : Game) : Game :=
  let g1 : Game :=
    { g with trex :=
        { g.trex with state := state, anim_frame := animationFramesOf state, curr_frame := 0 } }
  if g1.trex.did_start_running = false ∧ g1.trex.state = T_REX_RUNNING then
    let g2 : Game := { g1 with trex := { g1.trex with did_start_running := true } }
    match g2.OnStartedRunning with
    | some callback => { g2 with events := g2.events ++ [Event.started_running callback] }
    | none => g2
  else g1

/-- The function `StartJump` of `t_rex.c`. -/
def StartJump (G : Globals) (g : Game) : Game :=
  let g1 := SetTRexState T_REX_JUMPING g
  let g2 : Game := { g1 with events := g1.events ++ [Event.sound_press] }
  { g2 with trex := { g2.trex with jump_velocity := G.INITIAL_JUMP_VELOCITY } }

/-- The function `EndJump` of `t_rex.c`. -/
def EndJump (G : Globals) (g : Game) : Game :=
  if g.trex.reached_min_height = true ∧ g.trex.jump_velocity < G.DROP_VELOCITY then
    { g with trex := { g.trex with jump_velocity := G.DROP_VELOCITY } }
  else g

/-- The function `SetSpeedDrop` of `t_rex.c`. -/
def SetSpeedDrop (g : Game) : Game :=
  { g with trex := { g.trex with speed_drop := true, jump_velocity := 1 } }

/-- The function `ResetTRex` of `t_rex.c`. -/
def ResetTRex (e : Env) (g : Game) : Game :=
  let g1 : Game :=
    { g with trex :=
        { g.trex with
          pos := { g.trex.pos with y := g.trex.ground_pos }
          jump_velocity := 0
          speed_drop := false
          reached_min_height := false } }
  if IsDuckKeyPressed e = true then SetTRexState T_REX_DUCKING g1
  else SetTRexState T_REX_RUNNING g1

/-- The function `HandleControls`: the five tests of the source, in order, each on the state
left by the ones before it. -/
def HandleControls (G : Globals) (e : Env) (g : Game) : Game :=
  let g1 :=
    if g.trex.state ≠ T_REX_JUMPING ∧ g.trex.state ≠ T_REX_DUCKING ∧ IsJumpKeyPressed e = true
    then StartJump G g else g
  let g2 :=
    if g1.trex.state = T_REX_JUMPING ∧ IsJumpKeyPressed e = false then EndJump G g1 else g1
  let g3 :=
    if g2.trex.state = T_REX_JUMPING ∧ IsDuckKeyPressed e = true ∧ g2.trex.speed_drop = false
    then SetSpeedDrop g2 else g2
  let g4 :=
    if g3.trex.state = T_REX_RUNNING ∧ IsDuckKeyPressed e = true
    then SetTRexState T_REX_DUCKING g3 else g3
  if g4.trex.state = T_REX_DUCKING ∧ IsDuckKeyPressed e = false then ResetTRex e g4 else g4

/-- The function `UpdateAnimationFrames` of `t_rex.c`.  The sum
`trex.time += delta_time` is computed in `uint32_t` and stored back in the `int`. -/
def UpdateAnimationFrames (delta_time : Nat) (g : Game) : Game :=
  let g1 : Game := { g with trex := { g.trex with time := wrapInt32 (g.trex.time + delta_time) } }
  if (g1.trex.time : ℚ) ≥ g1.trex.anim_frame.ms_per_frame then
    let g2 : Game :=
      if g1.trex.curr_frame = g1.trex.anim_frame.len - 1 then
        { g1 with trex := { g1.trex with curr_frame := 0 } }
      else
        { g1 with trex := { g1.trex with curr_frame := g1.trex.curr_frame + 1 } }
    { g2 with trex := { g2.trex with time := 0 } }
  else g1

/-- The function `Blink` of `t_rex.c`. -/
def Blink (e : Env) (time : Int) (g : Game) : Game :=
  let delta_time : Int := time - g.trex.anim_start_time
  let g1 : Game := { g with trex := { g.trex with curr_frame := 1 } }
  if delta_time ≥ g1.trex.blink_delay then
    let g2 : Game := { g1 with trex := { g1.trex with curr_frame := 0 } }
    if delta_time - g2.trex.blink_delay ≥ 100 then
      let g3 := SetBlinkDelay e g2
      { g3 with trex := { g3.trex with anim_start_time := e.ticks_in_blink } }
    else g2
  else g1

/-- The first part of `UpdateJump`, up to and including the gravity increment:
the position is advanced with the velocity the call started with. -/
def UpdateJump_physics (G : Globals) (delta_time : Nat) (g : Game) : Game :=
  let ms_per_frame : ℚ := (animationFramesOf g.trex.state).ms_per_frame
  let frames_elapsed : ℚ := (delta_time : ℚ) / ms_per_frame
  let g1 : Game :=
    if g.trex.speed_drop = true then
      { g with trex := { g.trex with pos := { g.trex.pos with
          y := truncToInt ((g.trex.pos.y : ℚ)
                + g.trex.jump_velocity * G.SPEED_DROP_COEFFICIENT * frames_elapsed) } } }
    else
      { g with trex := { g.trex with pos := { g.trex.pos with
          y := truncToInt ((g.trex.pos.y : ℚ) + g.trex.jump_velocity * frames_elapsed) } } }
  { g1 with trex :=
      { g1.trex with jump_velocity := g1.trex.jump_velocity + G.GRAVITY * frames_elapsed } }

/-- The second part of `UpdateJump`: the minimum-height flag, the early end of
the jump, and the landing. -/
def UpdateJump_checks (G : Globals) (e : Env) (g : Game) : Game :=
  let g1 : Game :=
    if g.trex.pos.y < g.trex.min_jump_height ∨ g.trex.speed_drop = true then
      { g with trex := { g.trex with reached_min_height := true } }
    else g
  let g2 :=
    if g1.trex.pos.y < G.MAX_JUMP_HEIGHT ∨ g1.trex.speed_drop = true then EndJump G g1 else g1
  if g2.trex.pos.y > g2.trex.ground_pos then ResetTRex e g2 else g2

/-- The function `UpdateJump` of `t_rex.c`. -/
def UpdateJump (G : Globals) (e : Env) (delta_time : Nat) (g : Game) : Game :=
  UpdateJump_checks G e (UpdateJump_physics G delta_time g)

/-- The function `UpdateTRex`; `on_started_running` is `none` for a null pointer. -/
def UpdateTRex (G : Globals) (e : Env) (delta_time : Nat) (on_started_running : Option Nat)
    (g : Game) : Game :=
  let g1 : Game :=
    match on_started_running with
    | some callback => { g with OnStartedRunning := some callback }
    | none => g
  let g2 := HandleControls G e g1
  let g3 := UpdateAnimationFrames delta_time g2
  let g4 := if g3.trex.state = T_REX_WAITING then Blink e e.ticks g3 else g3
  if g4.trex.state = T_REX_JUMPING then UpdateJump G e delta_time g4 else g4

/-- The loop of `GetTRexCollisionSet`: entries `i`, `i + 1`, ... of `rects` below
index `len` are moved by `pos`; the remaining entries are left as they are. -/
def translateRects (pos : Point) (len : Int) : Nat → List Rectangle → List Rectangle
  | _, [] => []
  | i, r :: rest =>
    (if (i : Int) < len then { r with x := r.x + pos.x, y := r.y + pos.y } else r)
      :: translateRects pos len (i + 1) rest

/-- The function `GetTRexCollisionSet`: a copy of the template of the pose, moved to the
character's position. -/
def GetTRexCollisionSet (g : Game) : CollisionSet :=
  let collision_set :=
    if g.trex.state = T_REX_DUCKING then collisionSetAt 0 else collisionSetAt 1
  { collision_set with rects := translateRects g.trex.pos collision_set.len 0 collision_set.rects }

/-- The function `GetTRexFrame` of `t_rex.c`. -/
def GetTRexFrame (g : Game) : Rectangle :=
  { x := g.trex.pos.x, y := g.trex.pos.y, width := g.trex.width, height := g.trex.height }

/-- The record `Texture` of `sys/graphics.h`. -/
structure Texture where
  id : Int
  source : Rectangle
  destination : Rectangle
deriving DecidableEq

/-- The function `DrawTRex`, returning the texture it hands to `DrawTexture`.  The
array read `frames[curr_frame]` is defined for an index within the ten entries
of the array; outside of them the result is `none`. -/
def DrawTRex (g : Game) : Option Texture :=
  let width : Int :=
    if g.trex.state ≠ T_REX_DUCKING then g.trex.width else g.trex.ducking_width
  if 0 ≤ g.trex.curr_frame then
    match g.trex.anim_frame.frames[g.trex.curr_frame.toNat]? with
    | some frame =>
      some
        { id := 0
          source :=
            { x := g.trex.sprite_def.x + frame, y := g.trex.sprite_def.y,
              width := width, height := g.trex.height }
          destination :=
            { x := g.trex.pos.x, y := g.trex.pos.y, width := width, height := g.trex.height } }
    | none => none
  else none

/-! ## Sequences of updates -/

/-- The arguments and collaborator values of one `UpdateTRex` call. -/
structure Tick where
  env : Env
  delta_time : Nat
  on_started_running : Option Nat

/-- One `UpdateTRex` call with the inputs of `k`. -/
def stepTick (G : Globals) (g : Game) (k : Tick) : Game :=
  UpdateTRex G k.env k.delta_time k.on_started_running g

/-- The `UpdateTRex` calls of `ks`, first to last. -/
def runTicks (G : Globals) (g : Game) (ks : List Tick) : Game :=
  ks.foldl (stepTick G) g

/-- The game after the first `n` calls of `ks`. -/
def gameAfter (G : Globals) (g : Game) (ks : List Tick) (n : Nat) : Game :=
  runTicks G g (ks.take n)

/-- The number of callback invocations recorded in a trace. -/
def callbackCount (events : List Event) : Nat :=
  events.countP (fun ev => match ev with
    | Event.started_running _ => true
    | Event.sound_press => false)

/-! ## Relations used to follow the first-run callback -/

/-- Relation between the game before (`a`) and after (`b`) a step that neither
sets `did_start_running` nor invokes the callback: callback pointer, flag and
number of invocations are kept, and the state is not changed to running. -/
def QuietStep (a b : Game) : Prop :=
  b.OnStartedRunning = a.OnStartedRunning
  ∧ b.trex.did_start_running = a.trex.did_start_running
  ∧ callbackCount b.events = callbackCount a.events
  ∧ (b.trex.state = T_REX_RUNNING → a.trex.state = T_REX_RUNNING)

/-- Relation between the game before (`a`) and after (`b`) a step as far as the
first-run callback goes: the callback pointer is kept; once `did_start_running`
is set it stays set and nothing is invoked; while it is clear, either it stays
clear, the state is not running and nothing is invoked, or it is set, the state
is running and exactly one invocation is recorded. -/
def FirstRunStep (a b : Game) : Prop :=
  b.OnStartedRunning = a.OnStartedRunning
  ∧ (a.trex.did_start_running = true →
      b.trex.did_start_running = true
      ∧ callbackCount b.events = callbackCount a.events)
  ∧ (a.trex.did_start_running = false →
      (b.trex.did_start_running = false ∧ b.trex.state ≠ T_REX_RUNNING
        ∧ callbackCount b.events = callbackCount a.events)
      ∨ (b.trex.did_start_running = true ∧ b.trex.state = T_REX_RUNNING
        ∧ callbackCount b.events = callbackCount a.events + 1))

/-- The flag `did_start_running` is only clear while the character is not running. -/
def FlagSound (g : Game) : Prop :=
  g.trex.did_start_running = false → g.trex.state ≠ T_REX_RUNNING

/-! ## The template of a collision query -/

/-- The template `GetTRexCollisionSet` copies: entry 0 of `trex_collision_sets`
when ducking, entry 1 otherwise. -/
def collisionTemplate (g : Game) : CollisionSet :=
  if g.trex.state = T_REX_DUCKING then collisionSetAt 0 else collisionSetAt 1

/-! ## The kinematic part of the character -/

/-- The fields of `trex` that describe where the character is and how it moves:
state, position, vertical velocity, the two jump flags, the first-run flag, the
ground line and the minimum jump height. -/
structure Kinematics where
  state : TRexState
  pos : Point
  jump_velocity : ℚ
  speed_drop : Bool
  reached_min_height : Bool
  did_start_running : Bool
  ground_pos : Int
  min_jump_height : Int
deriving DecidableEq

/-- The kinematic fields of a game. -/
def kinematics (g : Game) : Kinematics :=
  { state := g.trex.state
    pos := g.trex.pos
    jump_velocity := g.trex.jump_velocity
    speed_drop := g.trex.speed_drop
    reached_min_height := g.trex.reached_min_height
    did_start_running := g.trex.did_start_running
    ground_pos := g.trex.ground_pos
    min_jump_height := g.trex.min_jump_height }

/-- The game with the three fields written by `Blink` (`curr_frame`,
`blink_delay`, `anim_start_time`) set to zero. -/
def eraseBlink (g : Game) : Game :=
  { g with trex := { g.trex with curr_frame := 0, blink_delay := 0, anim_start_time := 0 } }

/-- Two calls receive the same inputs as far as the keys and the elapsed time go:
the jump key and the duck key read the same and `delta_time` is the same; the
clock values, the random values and the callbacks may differ. -/
def SameKeys (k1 k2 : Tick) : Prop :=
  IsJumpKeyPressed k1.env = IsJumpKeyPressed k2.env
  ∧ IsDuckKeyPressed k1.env = IsDuckKeyPressed k2.env
  ∧ k1.delta_time = k2.delta_time

/-! ## Obstacles and the horizon

`obstacle.h` and `horizon.h` declare the records and the operations; the bodies
of the operations are not among the sources and are taken from the design
document. -/

/-- The record `ObstacleType` of `obstacle.h`. -/
structure ObstacleType where
  collision_boxes : CollisionSet
  type : Int
  width : Int
  height : Int
  y_pos : Int
  multiple_speed : Int
  min_gap : Int
  min_speed : Int
  speed_offset : Int
deriving DecidableEq

/-- The record `Obstacle` of `obstacle.h`. -/
structure Obstacle where
  type : ObstacleType
  sprite_def : Point
  pos : Point
  size : Int
  width : Int
  gap : Int
  speed_offset : Int
  following_obstacle_created : Bool
  is_visible : Bool
deriving DecidableEq

/-- Modelled from the spec: the horizon record lives in `horizon.c`, which is not
among the sources; it is the ordered sequence of live obstacles, in spawn order
(the scroll accumulator plays no part in the obstacle queries and is left out). -/
structure Horizon where
  obstacles : List Obstacle
deriving DecidableEq

/-- Modelled from the spec: the body of `IsObstacleVisible` is not among the
sources; an obstacle reports its visibility flag. -/
def IsObstacleVisible (o : Obstacle) : Bool := o.is_visible

/-- Modelled from the spec: the body of `UpdateObstacle` is not among the sources;
it decrements the world x-position by `speed × delta_time` and clears the
visibility flag once the right edge has passed the left boundary (x = 0) of the
visible area. -/
def UpdateObstacle (o : Obstacle) (delta_time : Nat) (speed : ℚ) : Obstacle :=
  let o1 : Obstacle :=
    { o with pos := { o.pos with x := truncToInt ((o.pos.x : ℚ) - speed * (delta_time : ℚ)) } }
  if o1.pos.x + o1.width < 0 then { o1 with is_visible := false } else o1

/-- Modelled from the spec: the body of `InitHorizon` is not among the sources; the
horizon starts without obstacles. -/
def InitHorizon : Horizon := { obstacles := [] }

/-- Modelled from the spec: the body of `ResetHorizon` is not among the sources; it
clears all live obstacles. -/
def ResetHorizon (_h : Horizon) : Horizon := { obstacles := [] }

/-- The obstacles of the horizon after every live obstacle has been advanced and
the obstacle spawned in this call, if any, has been appended at the right. -/
def advancedObstacles (h : Horizon) (delta_time : Nat) (speed : ℚ) (has_obstacles : Bool)
    (spawned : Option Obstacle) : List Obstacle :=
  h.obstacles.map (fun o => UpdateObstacle o delta_time speed)
    ++ (if has_obstacles = true then spawned.toList else [])

/-- Modelled from the spec: the body of `UpdateHorizon` is not among the sources.
It advances every live obstacle, appends a newly spawned obstacle when the spawn
conditions are met (the outcome of the random choice and of the gap and speed
tests is the argument `spawned`; nothing is spawned when `has_obstacles` is
false), and removes obstacles once invisible, always from the front. -/
def UpdateHorizon (h : Horizon) (delta_time : Nat) (speed : ℚ) (has_obstacles : Bool)
    (spawned : Option Obstacle) : Horizon :=
  { obstacles :=
      (advancedObstacles h delta_time speed has_obstacles spawned).dropWhile
        (fun o => !IsObstacleVisible o) }

/-- The world rectangle of an obstacle: its position, its width and the height
of its type. -/
def obstacleFrame (o : Obstacle) : Rectangle :=
  { x := o.pos.x, y := o.pos.y, width := o.width, height := o.type.height }

/-- The collision set of an obstacle: the template of its type moved to the
obstacle's position. -/
def obstacleCollisionSet (o : Obstacle) : CollisionSet :=
  { o.type.collision_boxes with
    rects := translateRects o.pos o.type.collision_boxes.len 0 o.type.collision_boxes.rects }

/-- The empty collision set returned when there is no obstacle: `len = 0`. -/
def emptyCollisionSet : CollisionSet :=
  { len := 0, rects := List.replicate 10 zeroRect }

/-- Modelled from the spec: the body of `GetNearestObstacleFrame` is not among the
sources; it returns the world rectangle of the first live obstacle, and the
zero-area rectangle when the sequence is empty. -/
def GetNearestObstacleFrame (h : Horizon) : Rectangle :=
  match h.obstacles with
  | [] => zeroRect
  | o :: _ => obstacleFrame o

/-- Modelled from the spec: the body of `GetNearestObstacleCollisionSet` is not
among the sources; it returns the translated collision set of the first live
obstacle, and the empty set when the sequence is empty. -/
def GetNearestObstacleCollisionSet (h : Horizon) : CollisionSet :=
  match h.obstacles with
  | [] => emptyCollisionSet
  | o :: _ => obstacleCollisionSet o

/-! ## The grounded-pose invariant -/

/-- The character stands on the ground line with cleared jump data. -/
def GroundedPose (g : Game) : Prop :=
  g.trex.pos.y = g.trex.ground_pos ∧ g.trex.jump_velocity = 0
  ∧ g.trex.speed_drop = false ∧ g.trex.reached_min_height = false

/-- The state is one of waiting, running and ducking. -/
def OnFoot (g : Game) : Prop :=
  g.trex.state = T_REX_WAITING ∨ g.trex.state = T_REX_RUNNING ∨ g.trex.state = T_REX_DUCKING

/-- The invariant of the character between updates: `pos.x = 50`, the character
is not under the ground line, and on foot it has the grounded pose. -/
def Settled (g : Game) : Prop :=
  g.trex.pos.x = 50 ∧ g.trex.pos.y ≤ g.trex.ground_pos ∧ (OnFoot g → GroundedPose g)

/-! ## Reachable games and the animation invariant -/

/-- The games reached from `InitTRex` by `UpdateTRex` calls and by `SetTRexState`
calls with any of the five states. -/
inductive Reachable (G : Globals) : Game → Prop where
  | init (e : Env) (g : Game) : Reachable G (InitTRex G e g)
  | update (e : Env) (delta_time : Nat) (on_started_running : Option Nat) {g : Game} :
      Reachable G g → Reachable G (UpdateTRex G e delta_time on_started_running g)
  | set_state (state : TRexState) {g : Game} :
      Reachable G g → Reachable G (SetTRexState state g)

/-- The animation of the character is the table entry of its state and the
current frame is one of the `len` listed frames, of which there are at most ten. -/
def FrameOk (g : Game) : Prop :=
  g.trex.anim_frame = animationFramesOf g.trex.state
  ∧ 0 ≤ g.trex.curr_frame
  ∧ g.trex.curr_frame < g.trex.anim_frame.len
  ∧ g.trex.anim_frame.len ≤ 10

/-! ## The blink delay -/

/-- The blink delay lies between 1000 and 6999. -/
def BlinkDelayOk (g : Game) : Prop :=
  1000 ≤ g.trex.blink_delay ∧ g.trex.blink_delay ≤ 6999

/-! ## Sample values for evaluation -/

/-- A choice of the constants of `globals.h`, used to evaluate the controller on
concrete inputs. -/
def sampleGlobals : Globals :=
  { WINDOW_HEIGHT := 150
    GROUND_OFFSET := 10
    MIN_JUMP_HEIGHT := 30
    MAX_JUMP_HEIGHT := 30
    INITIAL_JUMP_VELOCITY := -10
    DROP_VELOCITY := -5
    GRAVITY := 6 / 10
    SPEED_DROP_COEFFICIENT := 3
    sprite_definitions_TREX := { x := 848, y := 2 } }

/-- No key down, clock at 0, `rand()` returning 0. -/
def idleEnv : Env :=
  { key_up := false, key_space := false, key_down := false,
    ticks := 0, ticks_in_blink := 0, rand := 0 }

/-- The space key down, nothing else. -/
def jumpEnv : Env := { idleEnv with key_space := true }

/-- Both the jump key and the duck key down. -/
def jumpDuckEnv : Env := { idleEnv with key_space := true, key_down := true }

/-- Two calls that take the character from waiting to running: a jump with the
duck key held, which lands ducking within the same call, then a call with no key
down. -/
def quickRunTicks : List Tick :=
  [ { env := jumpDuckEnv, delta_time := 16, on_started_running := some 7 },
    { env := idleEnv, delta_time := 16, on_started_running := some 7 } ]

/-- Thirteen calls 37 ms apart: the space key down in the first, no key down in
the other twelve. -/
def touchdownTicks : List Tick :=
  { env := jumpEnv, delta_time := 37, on_started_running := some 7 }
    :: List.replicate 12 { env := idleEnv, delta_time := 37, on_started_running := some 7 }

/-- A game record with an all-zero character in the waiting state, no callback
registered and no effect recorded. -/
def blankGame : Game :=
  { trex :=
      { state := T_REX_WAITING
        sprite_def := { x := 0, y := 0 }
        pos := { x := 0, y := 0 }
        anim_frame := animationFramesOf T_REX_WAITING
        jump_velocity := 0
        blink_delay := 0
        width := 0
        height := 0
        ducking_width := 0
        time := 0
        anim_start_time := 0
        curr_frame := 0
        ground_pos := 0
        min_jump_height := 0
        did_start_running := false
        speed_drop := false
        reached_min_height := false }
    OnStartedRunning := none
    events := [] }

/-- The game right after `InitTRex` with the sample constants. -/
def sampleGame : Game := InitTRex sampleGlobals idleEnv blankGame

/-- The sample game with the character on the ground in the given state. -/
def groundedGame (state : TRexState) : Game :=
  { sampleGame with trex :=
      { sampleGame.trex with
        state := state
        anim_frame := animationFramesOf state
        curr_frame := 1 } }

/-- The down key down, nothing else. -/
def duckEnv : Env :=
  { key_up := false, key_space := false, key_down := true,
    ticks := 0, ticks_in_blink := 0, rand := 0 }

/-- A character in the air, `height` pixels above the ground line of the sample
game, moving with vertical velocity `velocity`, with the given minimum-height
flag. -/
def airborneGame (height : Int) (velocity : ℚ) (reached_min_height : Bool) : Game :=
  { sampleGame with trex :=
      { sampleGame.trex with
        state := T_REX_JUMPING
        anim_frame := animationFramesOf T_REX_JUMPING
        curr_frame := 0
        pos := { x := 50, y := sampleGame.trex.ground_pos - height }
        jump_velocity := velocity
        reached_min_height := reached_min_height } }


/-- No key down, clock at 5000 and 5100, `rand()` returning 1234. -/
def laterEnv : Env :=
  { key_up := false, key_space := false, key_down := false,
    ticks := 5000, ticks_in_blink := 5100, rand := 1234 }

/-- The game right after `InitTRex` with the sample constants at a later clock
value and another random value. -/
def laterGame : Game := InitTRex sampleGlobals laterEnv blankGame

/-- A character that crashed while fast-dropping: after `InitTRex`, one update
with the jump and duck keys down starts a jump and engages the fast drop, then
the game marks the crash with `SetTRexState T_REX_CRASHED`. -/
def crashedInDropGame : Game :=
  SetTRexState T_REX_CRASHED (UpdateTRex sampleGlobals jumpDuckEnv 5 none sampleGame)

/-- The sample game after the first call of `quickRunTicks`: the character has
landed ducking. -/
def duckedGame : Game := gameAfter sampleGlobals sampleGame quickRunTicks 1

/-! ## Waiting -/

/-- The function `HandleControls` leaves a waiting game untouched while the jump key is up. -/
theorem HandleControls_waiting_idle (G : Globals) (e : Env) (g : Game)
    (hs : g.trex.state = T_REX_WAITING) (hj : IsJumpKeyPressed e = false) :
    HandleControls G e g = g := by
  simp [HandleControls, hs, hj]

/-- The function `UpdateAnimationFrames` only writes `time` and `curr_frame`. -/
theorem UpdateAnimationFrames_frame (dt : Nat) (g : Game) :
    (UpdateAnimationFrames dt g).trex.state = g.trex.state
    ∧ (UpdateAnimationFrames dt g).trex.pos = g.trex.pos
    ∧ (UpdateAnimationFrames dt g).trex.jump_velocity = g.trex.jump_velocity := by
  unfold UpdateAnimationFrames
  simp only []
  split_ifs <;> simp

/-- The function `Blink` keeps the state, the position and the velocity, and
leaves frame 0 or 1. -/
theorem Blink_frame (e : Env) (time : Int) (g : Game) :
    (Blink e time g).trex.state = g.trex.state
    ∧ (Blink e time g).trex.pos = g.trex.pos
    ∧ (Blink e time g).trex.jump_velocity = g.trex.jump_velocity
    ∧ ((Blink e time g).trex.curr_frame = 0 ∨ (Blink e time g).trex.curr_frame = 1) := by
  unfold Blink
  simp only []
  split_ifs <;> simp [SetBlinkDelay]

/-- Passing a callback is the same as storing it first and passing none. -/
theorem UpdateTRex_some (G : Globals) (e : Env) (dt : Nat) (c : Nat) (g : Game) :
    UpdateTRex G e dt (some c) g
      = UpdateTRex G e dt none { g with OnStartedRunning := some c } := rfl

/-- The body of `UpdateTRex` once the callback is stored. -/
theorem UpdateTRex_none (G : Globals) (e : Env) (dt : Nat) (g : Game) :
    UpdateTRex G e dt none g
      = (if (if (UpdateAnimationFrames dt (HandleControls G e g)).trex.state = T_REX_WAITING
              then Blink e e.ticks (UpdateAnimationFrames dt (HandleControls G e g))
              else UpdateAnimationFrames dt (HandleControls G e g)).trex.state = T_REX_JUMPING
         then UpdateJump G e dt
              (if (UpdateAnimationFrames dt (HandleControls G e g)).trex.state = T_REX_WAITING
               then Blink e e.ticks (UpdateAnimationFrames dt (HandleControls G e g))
               else UpdateAnimationFrames dt (HandleControls G e g))
         else (if (UpdateAnimationFrames dt (HandleControls G e g)).trex.state = T_REX_WAITING
               then Blink e e.ticks (UpdateAnimationFrames dt (HandleControls G e g))
               else UpdateAnimationFrames dt (HandleControls G e g))) := rfl

/-- One update of a waiting game with the jump key up, no callback passed. -/
theorem UpdateTRex_none_waiting_idle (G : Globals) (e : Env) (dt : Nat) (g : Game)
    (hs : g.trex.state = T_REX_WAITING) (hj : IsJumpKeyPressed e = false) :
    (UpdateTRex G e dt none g).trex.state = T_REX_WAITING
    ∧ (UpdateTRex G e dt none g).trex.pos = g.trex.pos
    ∧ (UpdateTRex G e dt none g).trex.jump_velocity = g.trex.jump_velocity
    ∧ ((UpdateTRex G e dt none g).trex.curr_frame = 0
        ∨ (UpdateTRex G e dt none g).trex.curr_frame = 1) := by
  rw [UpdateTRex_none, HandleControls_waiting_idle G e g hs hj]
  obtain ⟨a1, a2, a3⟩ := UpdateAnimationFrames_frame dt g
  obtain ⟨b1, b2, b3, b4⟩ := Blink_frame e e.ticks (UpdateAnimationFrames dt g)
  have hw : (UpdateAnimationFrames dt g).trex.state = T_REX_WAITING := by rw [a1, hs]
  have hb : (Blink e e.ticks (UpdateAnimationFrames dt g)).trex.state = T_REX_WAITING := by
    rw [b1, hw]
  rw [if_pos hw, if_neg (by rw [hb]; decide)]
  refine ⟨hb, ?_, ?_, b4⟩
  · rw [b2, a2]
  · rw [b3, a3]

/-- One update of a waiting game with the jump key up. -/
theorem UpdateTRex_waiting_idle (G : Globals) (e : Env) (dt : Nat) (cb : Option Nat) (g : Game)
    (hs : g.trex.state = T_REX_WAITING) (hj : IsJumpKeyPressed e = false) :
    (UpdateTRex G e dt cb g).trex.state = T_REX_WAITING
    ∧ (UpdateTRex G e dt cb g).trex.pos = g.trex.pos
    ∧ (UpdateTRex G e dt cb g).trex.jump_velocity = g.trex.jump_velocity
    ∧ ((UpdateTRex G e dt cb g).trex.curr_frame = 0
        ∨ (UpdateTRex G e dt cb g).trex.curr_frame = 1) := by
  cases cb with
  | none => exact UpdateTRex_none_waiting_idle G e dt g hs hj
  | some c =>
    rw [UpdateTRex_some]
    exact UpdateTRex_none_waiting_idle G e dt { g with OnStartedRunning := some c } hs hj

/-- Unfolding of `runTicks` on a non-empty list. -/
theorem runTicks_cons (G : Globals) (g : Game) (k : Tick) (rest : List Tick) :
    runTicks G g (k :: rest)
      = runTicks G (UpdateTRex G k.env k.delta_time k.on_started_running g) rest := by
  simp only [runTicks, List.foldl_cons, stepTick]

/-- Unfolding of `runTicks` on the empty list. -/
theorem runTicks_nil (G : Globals) (g : Game) : runTicks G g [] = g := by
  simp only [runTicks, List.foldl_nil]

/-- Any number of updates of a waiting game with the jump key up. -/
theorem runTicks_waiting_idle (G : Globals) (ks : List Tick) :
    ∀ g : Game, g.trex.state = T_REX_WAITING →
      (∀ k ∈ ks, IsJumpKeyPressed k.env = false) →
      (runTicks G g ks).trex.state = T_REX_WAITING
      ∧ (runTicks G g ks).trex.pos = g.trex.pos
      ∧ (runTicks G g ks).trex.jump_velocity = g.trex.jump_velocity := by
  induction ks with
  | nil => intro g hs _; rw [runTicks_nil]; exact ⟨hs, rfl, rfl⟩
  | cons k rest ih =>
    intro g hs hk
    obtain ⟨s1, s2, s3, _⟩ :=
      UpdateTRex_waiting_idle G k.env k.delta_time k.on_started_running g hs
        (hk k (List.mem_cons_self k rest))
    obtain ⟨r1, r2, r3⟩ :=
      ih (UpdateTRex G k.env k.delta_time k.on_started_running g) s1
        (fun k1 h1 => hk k1 (List.mem_cons_of_mem k h1))
    rw [runTicks_cons]
    exact ⟨r1, r2.trans s2, r3.trans s3⟩

/-- C1: from a waiting character, one `UpdateTRex` with the jump key up (any duck
key, delta time, ticks, random value and callback) leaves the state waiting,
`pos.x`, `pos.y` and `jump_velocity` unchanged and `curr_frame` equal to 0 or 1;
and any sequence of such updates ends waiting at the same position with the same
velocity. -/
theorem C1_waiting_stays_waiting (G : Globals) (g : Game)
    (hs : g.trex.state = T_REX_WAITING) :
    (∀ (e : Env) (dt : Nat) (cb : Option Nat), IsJumpKeyPressed e = false →
        (UpdateTRex G e dt cb g).trex.state = T_REX_WAITING
        ∧ (UpdateTRex G e dt cb g).trex.pos.x = g.trex.pos.x
        ∧ (UpdateTRex G e dt cb g).trex.pos.y = g.trex.pos.y
        ∧ (UpdateTRex G e dt cb g).trex.jump_velocity = g.trex.jump_velocity
        ∧ ((UpdateTRex G e dt cb g).trex.curr_frame = 0
            ∨ (UpdateTRex G e dt cb g).trex.curr_frame = 1))
    ∧ (∀ ks : List Tick, (∀ k ∈ ks, IsJumpKeyPressed k.env = false) →
        (runTicks G g ks).trex.state = T_REX_WAITING
        ∧ (runTicks G g ks).trex.pos.x = g.trex.pos.x
        ∧ (runTicks G g ks).trex.pos.y = g.trex.pos.y
        ∧ (runTicks G g ks).trex.jump_velocity = g.trex.jump_velocity) := by
  constructor
  · intro e dt cb hj
    obtain ⟨s1, s2, s3, s4⟩ := UpdateTRex_waiting_idle G e dt cb g hs hj
    exact ⟨s1, by rw [s2], by rw [s2], s3, s4⟩
  · intro ks hk
    obtain ⟨r1, r2, r3⟩ := runTicks_waiting_idle G ks g hs hk
    exact ⟨r1, by rw [r2], by rw [r2], r3⟩

/-- C1 at the freshly initialised sample game. -/
theorem C1_waiting_stays_waiting_witness :
    sampleGame.trex.state = T_REX_WAITING
    ∧ (∀ (e : Env) (dt : Nat) (cb : Option Nat), IsJumpKeyPressed e = false →
        (UpdateTRex sampleGlobals e dt cb sampleGame).trex.state = T_REX_WAITING
        ∧ (UpdateTRex sampleGlobals e dt cb sampleGame).trex.pos.x = sampleGame.trex.pos.x
        ∧ (UpdateTRex sampleGlobals e dt cb sampleGame).trex.pos.y = sampleGame.trex.pos.y
        ∧ (UpdateTRex sampleGlobals e dt cb sampleGame).trex.jump_velocity
            = sampleGame.trex.jump_velocity
        ∧ ((UpdateTRex sampleGlobals e dt cb sampleGame).trex.curr_frame = 0
            ∨ (UpdateTRex sampleGlobals e dt cb sampleGame).trex.curr_frame = 1))
    ∧ (∀ ks : List Tick, (∀ k ∈ ks, IsJumpKeyPressed k.env = false) →
        (runTicks sampleGlobals sampleGame ks).trex.state = T_REX_WAITING
        ∧ (runTicks sampleGlobals sampleGame ks).trex.pos.x = sampleGame.trex.pos.x
        ∧ (runTicks sampleGlobals sampleGame ks).trex.pos.y = sampleGame.trex.pos.y
        ∧ (runTicks sampleGlobals sampleGame ks).trex.jump_velocity
            = sampleGame.trex.jump_velocity) :=
  ⟨rfl, C1_waiting_stays_waiting sampleGlobals sampleGame rfl⟩

/-! ## Starting a jump -/

/-- What `StartJump` writes. -/
theorem StartJump_fields (G : Globals) (g : Game) :
    (StartJump G g).trex.state = T_REX_JUMPING
    ∧ (StartJump G g).trex.jump_velocity = G.INITIAL_JUMP_VELOCITY
    ∧ (StartJump G g).trex.curr_frame = 0
    ∧ (StartJump G g).trex.anim_frame = animationFramesOf T_REX_JUMPING
    ∧ (StartJump G g).trex.pos = g.trex.pos
    ∧ (StartJump G g).trex.speed_drop = g.trex.speed_drop
    ∧ (StartJump G g).trex.reached_min_height = g.trex.reached_min_height := by
  simp [StartJump, SetTRexState]

/-- With the jump key down and the duck key up, `HandleControls` on a state that
is neither jumping nor ducking is `StartJump`. -/
theorem HandleControls_start_jump (G : Globals) (e : Env) (g : Game)
    (hj : g.trex.state ≠ T_REX_JUMPING) (hd : g.trex.state ≠ T_REX_DUCKING)
    (kj : IsJumpKeyPressed e = true) (kd : IsDuckKeyPressed e = false) :
    HandleControls G e g = StartJump G g := by
  have h1 := (StartJump_fields G g).1
  simp [HandleControls, hj, hd, kj, kd, h1]

/-- C2: from a state that is neither jumping nor ducking, with the jump key
pressed and the duck key up, `HandleControls` leaves the state jumping with
`jump_velocity = INITIAL_JUMP_VELOCITY`, `curr_frame = 0` and the jumping
animation, and keeps `pos`, `speed_drop` and `reached_min_height`. -/
theorem C2_jump_key_starts_jump (G : Globals) (e : Env) (g : Game)
    (hj : g.trex.state ≠ T_REX_JUMPING) (hd : g.trex.state ≠ T_REX_DUCKING)
    (kj : IsJumpKeyPressed e = true) (kd : IsDuckKeyPressed e = false) :
    (HandleControls G e g).trex.state = T_REX_JUMPING
    ∧ (HandleControls G e g).trex.jump_velocity = G.INITIAL_JUMP_VELOCITY
    ∧ (HandleControls G e g).trex.curr_frame = 0
    ∧ (HandleControls G e g).trex.anim_frame = animationFramesOf T_REX_JUMPING
    ∧ (HandleControls G e g).trex.pos = g.trex.pos
    ∧ (HandleControls G e g).trex.speed_drop = g.trex.speed_drop
    ∧ (HandleControls G e g).trex.reached_min_height = g.trex.reached_min_height := by
  rw [HandleControls_start_jump G e g hj hd kj kd]
  exact StartJump_fields G g

/-- C2 at the freshly initialised sample game with the space key down. -/
theorem C2_jump_key_starts_jump_witness :
    sampleGame.trex.state ≠ T_REX_JUMPING ∧ sampleGame.trex.state ≠ T_REX_DUCKING
    ∧ IsJumpKeyPressed jumpEnv = true ∧ IsDuckKeyPressed jumpEnv = false
    ∧ (HandleControls sampleGlobals jumpEnv sampleGame).trex.state = T_REX_JUMPING
    ∧ (HandleControls sampleGlobals jumpEnv sampleGame).trex.jump_velocity
        = sampleGlobals.INITIAL_JUMP_VELOCITY
    ∧ (HandleControls sampleGlobals jumpEnv sampleGame).trex.curr_frame = 0
    ∧ (HandleControls sampleGlobals jumpEnv sampleGame).trex.anim_frame
        = animationFramesOf T_REX_JUMPING
    ∧ (HandleControls sampleGlobals jumpEnv sampleGame).trex.pos = sampleGame.trex.pos
    ∧ (HandleControls sampleGlobals jumpEnv sampleGame).trex.speed_drop
        = sampleGame.trex.speed_drop
    ∧ (HandleControls sampleGlobals jumpEnv sampleGame).trex.reached_min_height
        = sampleGame.trex.reached_min_height :=
  ⟨by decide, by decide, rfl, rfl,
    C2_jump_key_starts_jump sampleGlobals jumpEnv sampleGame (by decide) (by decide) rfl rfl⟩

/-! ## Landing -/

/-- What `ResetTRex` leaves in the character. -/
theorem ResetTRex_fields (e : Env) (g : Game) :
    (ResetTRex e g).trex.pos.y = g.trex.ground_pos
    ∧ (ResetTRex e g).trex.pos.x = g.trex.pos.x
    ∧ (ResetTRex e g).trex.jump_velocity = 0
    ∧ (ResetTRex e g).trex.speed_drop = false
    ∧ (ResetTRex e g).trex.reached_min_height = false
    ∧ (ResetTRex e g).trex.state
        = (if IsDuckKeyPressed e = true then T_REX_DUCKING else T_REX_RUNNING)
    ∧ (ResetTRex e g).trex.ground_pos = g.trex.ground_pos := by
  unfold ResetTRex SetTRexState
  simp only []
  split_ifs <;> first | (simp_all; done) | (simp_all; split <;> simp_all)

/-- The function `EndJump` only writes the velocity. -/
theorem EndJump_fields (G : Globals) (g : Game) :
    (EndJump G g).trex.state = g.trex.state
    ∧ (EndJump G g).trex.pos = g.trex.pos
    ∧ (EndJump G g).trex.ground_pos = g.trex.ground_pos
    ∧ (EndJump G g).trex.speed_drop = g.trex.speed_drop
    ∧ (EndJump G g).trex.reached_min_height = g.trex.reached_min_height := by
  unfold EndJump
  split_ifs <;> simp

/-- A conditional step that keeps position and ground level in both branches
keeps them. -/
theorem ite_keeps_pos (c : Prop) [Decidable c] (a b g : Game)
    (ha : a.trex.pos = g.trex.pos ∧ a.trex.ground_pos = g.trex.ground_pos)
    (hb : b.trex.pos = g.trex.pos ∧ b.trex.ground_pos = g.trex.ground_pos) :
    (if c then a else b).trex.pos = g.trex.pos
    ∧ (if c then a else b).trex.ground_pos = g.trex.ground_pos := by
  split_ifs
  · exact ha
  · exact hb

/-- When the position handed to `UpdateJump_checks` is strictly below the ground
line, the character is landed. -/
theorem UpdateJump_checks_landing (G : Globals) (e : Env) (g : Game)
    (h : g.trex.pos.y > g.trex.ground_pos) :
    (UpdateJump_checks G e g).trex.pos.y = g.trex.ground_pos
    ∧ (UpdateJump_checks G e g).trex.jump_velocity = 0
    ∧ (UpdateJump_checks G e g).trex.speed_drop = false
    ∧ (UpdateJump_checks G e g).trex.reached_min_height = false
    ∧ (UpdateJump_checks G e g).trex.state
        = (if IsDuckKeyPressed e = true then T_REX_DUCKING else T_REX_RUNNING) := by
  have key : ∀ g2 : Game,
      (g2.trex.pos = g.trex.pos ∧ g2.trex.ground_pos = g.trex.ground_pos) →
      (if g2.trex.pos.y > g2.trex.ground_pos then ResetTRex e g2 else g2).trex.pos.y
          = g.trex.ground_pos
      ∧ (if g2.trex.pos.y > g2.trex.ground_pos then ResetTRex e g2 else g2).trex.jump_velocity = 0
      ∧ (if g2.trex.pos.y > g2.trex.ground_pos then ResetTRex e g2 else g2).trex.speed_drop
          = false
      ∧ (if g2.trex.pos.y > g2.trex.ground_pos then ResetTRex e g2
          else g2).trex.reached_min_height = false
      ∧ (if g2.trex.pos.y > g2.trex.ground_pos then ResetTRex e g2 else g2).trex.state
          = (if IsDuckKeyPressed e = true then T_REX_DUCKING else T_REX_RUNNING) := by
    intro g2 hpg
    have h2 : g2.trex.pos.y > g2.trex.ground_pos := by rw [hpg.1, hpg.2]; exact h
    rw [if_pos h2]
    obtain ⟨r1, _, r3, r4, r5, r6, _⟩ := ResetTRex_fields e g2
    exact ⟨r1.trans hpg.2, r3, r4, r5, r6⟩
  unfold UpdateJump_checks
  simp only []
  apply key
  have h1 := ite_keeps_pos (g.trex.pos.y < g.trex.min_jump_height ∨ g.trex.speed_drop = true)
    { g with trex := { g.trex with reached_min_height := true } } g g ⟨rfl, rfl⟩ ⟨rfl, rfl⟩
  apply ite_keeps_pos
  · obtain ⟨_, e2, e3, _⟩ := EndJump_fields G
      (if g.trex.pos.y < g.trex.min_jump_height ∨ g.trex.speed_drop = true
        then { g with trex := { g.trex with reached_min_height := true } } else g)
    exact ⟨e2.trans h1.1, e3.trans h1.2⟩
  · exact h1

/-- The physics step leaves the ground level as it was. -/
theorem UpdateJump_physics_ground_pos (G : Globals) (dt : Nat) (g : Game) :
    (UpdateJump_physics G dt g).trex.ground_pos = g.trex.ground_pos := by
  unfold UpdateJump_physics
  simp only []
  split_ifs <;> rfl

/-- C3, amended: for a jumping character, when the position computed by the
physics step of `UpdateJump` is strictly below the ground line
(`pos.y > ground_pos`, `y` growing downward), `UpdateJump` lands the character:
`pos.y = ground_pos`, `jump_velocity = 0`, both jump flags cleared, and the state
is ducking when the duck key is held and running otherwise. -/
theorem C3_landing_strictly_below_ground (G : Globals) (e : Env) (dt : Nat) (g : Game)
    (_hs : g.trex.state = T_REX_JUMPING)
    (h : (UpdateJump_physics G dt g).trex.pos.y > g.trex.ground_pos) :
    (UpdateJump G e dt g).trex.pos.y = g.trex.ground_pos
    ∧ (UpdateJump G e dt g).trex.jump_velocity = 0
    ∧ (UpdateJump G e dt g).trex.speed_drop = false
    ∧ (UpdateJump G e dt g).trex.reached_min_height = false
    ∧ (UpdateJump G e dt g).trex.state
        = (if IsDuckKeyPressed e = true then T_REX_DUCKING else T_REX_RUNNING) := by
  have hg := UpdateJump_physics_ground_pos G dt g
  have h2 : (UpdateJump_physics G dt g).trex.pos.y > (UpdateJump_physics G dt g).trex.ground_pos := by
    rw [hg]; exact h
  have := UpdateJump_checks_landing G e (UpdateJump_physics G dt g) h2
  rw [hg] at this
  unfold UpdateJump
  exact this

/-- C3 at a character 10 pixels above the ground falling at 10 pixels per frame,
over two frames: the physics step puts it 10 pixels under the ground line. -/
theorem C3_landing_strictly_below_ground_witness :
    (airborneGame 10 10 false).trex.state = T_REX_JUMPING
    ∧ (UpdateJump_physics sampleGlobals 32 (airborneGame 10 10 false)).trex.pos.y
        > (airborneGame 10 10 false).trex.ground_pos
    ∧ (UpdateJump sampleGlobals idleEnv 32 (airborneGame 10 10 false)).trex.pos.y
        = (airborneGame 10 10 false).trex.ground_pos
    ∧ (UpdateJump sampleGlobals idleEnv 32 (airborneGame 10 10 false)).trex.jump_velocity = 0
    ∧ (UpdateJump sampleGlobals idleEnv 32 (airborneGame 10 10 false)).trex.speed_drop = false
    ∧ (UpdateJump sampleGlobals idleEnv 32 (airborneGame 10 10 false)).trex.reached_min_height = false
    ∧ (UpdateJump sampleGlobals idleEnv 32 (airborneGame 10 10 false)).trex.state
        = (if IsDuckKeyPressed idleEnv = true then T_REX_DUCKING else T_REX_RUNNING) :=
  have h : (UpdateJump_physics sampleGlobals 32 (airborneGame 10 10 false)).trex.pos.y
      > (airborneGame 10 10 false).trex.ground_pos := by
    norm_num [UpdateJump_physics, airborneGame, sampleGame, InitTRex, SetBlinkDelay,
      sampleGlobals, animationFramesOf, trex_animation_frames, TRexState.toNat, truncToInt]
  ⟨rfl, h, C3_landing_strictly_below_ground sampleGlobals idleEnv 32 (airborneGame 10 10 false) rfl h⟩

/-- C3 as stated fails when the physics step puts the character exactly on the
ground line: a character 10 pixels above the ground falling at 10 pixels per
frame is, after one frame of 16 ms, at `pos.y = ground_pos`, and `UpdateJump`
leaves it jumping with velocity `10 + 0.6`. -/
theorem C3_counterexample_exactly_at_ground :
    (airborneGame 10 10 false).trex.state = T_REX_JUMPING
    ∧ (UpdateJump_physics sampleGlobals 16 (airborneGame 10 10 false)).trex.pos.y
        ≥ (airborneGame 10 10 false).trex.ground_pos
    ∧ (UpdateJump sampleGlobals idleEnv 16 (airborneGame 10 10 false)).trex.state = T_REX_JUMPING
    ∧ (UpdateJump sampleGlobals idleEnv 16 (airborneGame 10 10 false)).trex.jump_velocity = 53 / 5
    ∧ ¬ ((UpdateJump sampleGlobals idleEnv 16 (airborneGame 10 10 false)).trex.pos.y
            = (airborneGame 10 10 false).trex.ground_pos
          ∧ (UpdateJump sampleGlobals idleEnv 16 (airborneGame 10 10 false)).trex.jump_velocity = 0
          ∧ (UpdateJump sampleGlobals idleEnv 16 (airborneGame 10 10 false)).trex.speed_drop = false
          ∧ (UpdateJump sampleGlobals idleEnv 16 (airborneGame 10 10 false)).trex.reached_min_height
              = false
          ∧ (UpdateJump sampleGlobals idleEnv 16 (airborneGame 10 10 false)).trex.state
              = (if IsDuckKeyPressed idleEnv = true then T_REX_DUCKING else T_REX_RUNNING)) := by
  norm_num [UpdateJump, UpdateJump_checks, UpdateJump_physics, EndJump, airborneGame, sampleGame,
    InitTRex, SetBlinkDelay, sampleGlobals, animationFramesOf, trex_animation_frames,
    TRexState.toNat, truncToInt, idleEnv, IsDuckKeyPressed]

set_option maxRecDepth 100000 in
/-- A position exactly on the ground line with the character still jumping is
reached in play: after `InitTRex` and the thirteen calls of `touchdownTicks` the
character is at `pos.y = ground_pos`, jumping, with velocity `821 / 80`. -/
theorem touchdownTicks_run :
    (runTicks sampleGlobals sampleGame touchdownTicks).trex.state = T_REX_JUMPING
    ∧ (runTicks sampleGlobals sampleGame touchdownTicks).trex.pos.y
        = (runTicks sampleGlobals sampleGame touchdownTicks).trex.ground_pos
    ∧ (runTicks sampleGlobals sampleGame touchdownTicks).trex.jump_velocity = 821 / 80 := by
  with_unfolding_all decide

/-! ## Releasing the jump key in the air -/

/-- With the jump key and the duck key up, `HandleControls` on a jumping
character is `EndJump`. -/
theorem HandleControls_end_jump (G : Globals) (e : Env) (g : Game)
    (hs : g.trex.state = T_REX_JUMPING)
    (kj : IsJumpKeyPressed e = false) (kd : IsDuckKeyPressed e = false) :
    HandleControls G e g = EndJump G g := by
  have h1 := (EndJump_fields G g).1
  simp [HandleControls, hs, kj, kd, h1]

/-- C4: for a jumping character with the jump key released and the duck key up,
`HandleControls` changes nothing when `reached_min_height` is false, and when it
is true changes only `jump_velocity`, to `max jump_velocity DROP_VELOCITY`; the
state stays jumping in both cases. -/
theorem C4_release_clamps_after_min_height (G : Globals) (e : Env) (g : Game)
    (hs : g.trex.state = T_REX_JUMPING)
    (kj : IsJumpKeyPressed e = false) (kd : IsDuckKeyPressed e = false) :
    (g.trex.reached_min_height = false → HandleControls G e g = g)
    ∧ (g.trex.reached_min_height = true →
        HandleControls G e g
          = { g with trex :=
                { g.trex with jump_velocity := max g.trex.jump_velocity G.DROP_VELOCITY } })
    ∧ (HandleControls G e g).trex.state = T_REX_JUMPING := by
  rw [HandleControls_end_jump G e g hs kj kd]
  refine ⟨?_, ?_, ?_⟩
  · intro hr
    simp [EndJump, hr]
  · intro hr
    unfold EndJump
    by_cases hv : g.trex.jump_velocity < G.DROP_VELOCITY
    · rw [if_pos ⟨hr, hv⟩, max_eq_right (le_of_lt hv)]
    · rw [if_neg (fun h => hv h.2), max_eq_left (not_lt.mp hv)]
  · rw [(EndJump_fields G g).1, hs]

/-- C4 at a character 40 pixels up, rising at 8 pixels per frame, with the
minimum-height flag set. -/
theorem C4_release_clamps_after_min_height_witness :
    (airborneGame 40 (-8) true).trex.state = T_REX_JUMPING
    ∧ IsJumpKeyPressed idleEnv = false ∧ IsDuckKeyPressed idleEnv = false
    ∧ ((airborneGame 40 (-8) true).trex.reached_min_height = false →
        HandleControls sampleGlobals idleEnv (airborneGame 40 (-8) true) = airborneGame 40 (-8) true)
    ∧ ((airborneGame 40 (-8) true).trex.reached_min_height = true →
        HandleControls sampleGlobals idleEnv (airborneGame 40 (-8) true)
          = { airborneGame 40 (-8) true with trex :=
                { (airborneGame 40 (-8) true).trex with
                  jump_velocity :=
                    max (airborneGame 40 (-8) true).trex.jump_velocity sampleGlobals.DROP_VELOCITY } })
    ∧ (HandleControls sampleGlobals idleEnv (airborneGame 40 (-8) true)).trex.state = T_REX_JUMPING :=
  ⟨rfl, rfl, rfl,
    C4_release_clamps_after_min_height sampleGlobals idleEnv (airborneGame 40 (-8) true) rfl rfl rfl⟩

/-! ## The physics step -/

/-- Truncation of an integer is that integer. -/
theorem truncToInt_intCast (z : Int) : truncToInt (z : ℚ) = z := by
  unfold truncToInt
  split_ifs <;> simp

/-- The frame duration of the jumping animation is the integer quotient 16. -/
theorem ms_per_frame_jumping : (animationFramesOf T_REX_JUMPING).ms_per_frame = 16 := by
  norm_num [animationFramesOf, trex_animation_frames, TRexState.toNat]

/-- C5: for a jumping character the physics step of `UpdateJump` uses
`frames_elapsed = delta_time / 16` (16 being `1000 / 60` in integer arithmetic,
the frame duration of the jumping animation), sets `pos.y` to the truncation of
`pos.y + jump_velocity * frames_elapsed * (SPEED_DROP_COEFFICIENT if speed_drop
else 1)` computed with the velocity the call started with, and sets
`jump_velocity` to `jump_velocity + GRAVITY * frames_elapsed`; with
`delta_time = 0` position and velocity are unchanged. -/
theorem C5_jump_physics_step (G : Globals) (dt : Nat) (g : Game)
    (hs : g.trex.state = T_REX_JUMPING) :
    (animationFramesOf g.trex.state).ms_per_frame = ((1000 / 60 : Int) : ℚ)
    ∧ (animationFramesOf g.trex.state).ms_per_frame = 16
    ∧ (UpdateJump_physics G dt g).trex.pos.y
        = truncToInt ((g.trex.pos.y : ℚ)
            + g.trex.jump_velocity * ((dt : ℚ) / 16)
              * (if g.trex.speed_drop = true then G.SPEED_DROP_COEFFICIENT else 1))
    ∧ (UpdateJump_physics G dt g).trex.jump_velocity
        = g.trex.jump_velocity + G.GRAVITY * ((dt : ℚ) / 16)
    ∧ (UpdateJump_physics G 0 g).trex.pos.y = g.trex.pos.y
    ∧ (UpdateJump_physics G 0 g).trex.jump_velocity = g.trex.jump_velocity := by
  have h16 := ms_per_frame_jumping
  have hpos : ∀ d : Nat, (UpdateJump_physics G d g).trex.pos.y
      = truncToInt ((g.trex.pos.y : ℚ)
          + g.trex.jump_velocity * ((d : ℚ) / 16)
            * (if g.trex.speed_drop = true then G.SPEED_DROP_COEFFICIENT else 1)) := by
    intro d
    unfold UpdateJump_physics
    simp only [hs, h16]
    split_ifs
    · simp only []
      congr 1
      ring
    · simp only []
      congr 1
      ring
  have hvel : ∀ d : Nat, (UpdateJump_physics G d g).trex.jump_velocity
      = g.trex.jump_velocity + G.GRAVITY * ((d : ℚ) / 16) := by
    intro d
    unfold UpdateJump_physics
    simp only [hs, h16]
    split_ifs <;> rfl
  refine ⟨?_, ?_, hpos dt, hvel dt, ?_, ?_⟩
  · rw [hs, h16]; norm_num
  · rw [hs, h16]
  · rw [hpos 0]
    simp [truncToInt_intCast]
  · rw [hvel 0]
    simp

/-- C5 at a character 10 pixels up falling at 10 pixels per frame. -/
theorem C5_jump_physics_step_witness :
    (airborneGame 10 10 false).trex.state = T_REX_JUMPING
    ∧ (animationFramesOf (airborneGame 10 10 false).trex.state).ms_per_frame
        = ((1000 / 60 : Int) : ℚ)
    ∧ (animationFramesOf (airborneGame 10 10 false).trex.state).ms_per_frame = 16
    ∧ (UpdateJump_physics sampleGlobals 8 (airborneGame 10 10 false)).trex.pos.y
        = truncToInt (((airborneGame 10 10 false).trex.pos.y : ℚ)
            + (airborneGame 10 10 false).trex.jump_velocity * (((8 : Nat) : ℚ) / 16)
              * (if (airborneGame 10 10 false).trex.speed_drop = true
                  then sampleGlobals.SPEED_DROP_COEFFICIENT else 1))
    ∧ (UpdateJump_physics sampleGlobals 8 (airborneGame 10 10 false)).trex.jump_velocity
        = (airborneGame 10 10 false).trex.jump_velocity
            + sampleGlobals.GRAVITY * (((8 : Nat) : ℚ) / 16)
    ∧ (UpdateJump_physics sampleGlobals 0 (airborneGame 10 10 false)).trex.pos.y
        = (airborneGame 10 10 false).trex.pos.y
    ∧ (UpdateJump_physics sampleGlobals 0 (airborneGame 10 10 false)).trex.jump_velocity
        = (airborneGame 10 10 false).trex.jump_velocity :=
  ⟨rfl, C5_jump_physics_step sampleGlobals 8 (airborneGame 10 10 false) rfl⟩

/-! ## The first-run callback -/

/-- Appending a callback invocation raises the count by one. -/
theorem callbackCount_append_started (evs : List Event) (c : Nat) :
    callbackCount (evs ++ [Event.started_running c]) = callbackCount evs + 1 := by
  simp [callbackCount, List.countP_append]

/-- Appending a sound leaves the count of callback invocations as it is. -/
theorem callbackCount_append_sound (evs : List Event) :
    callbackCount (evs ++ [Event.sound_press]) = callbackCount evs := by
  simp [callbackCount, List.countP_append]

/-- A step that does nothing is quiet. -/
theorem QuietStep_refl (a : Game) : QuietStep a a := ⟨rfl, rfl, rfl, id⟩

/-- Quiet steps compose. -/
theorem QuietStep_trans {a b c : Game} (h1 : QuietStep a b) (h2 : QuietStep b c) :
    QuietStep a c :=
  ⟨h2.1.trans h1.1, h2.2.1.trans h1.2.1, h2.2.2.1.trans h1.2.2.1,
    fun h => h1.2.2.2 (h2.2.2.2 h)⟩

/-- A guarded quiet step is quiet. -/
theorem QuietStep_ite (cnd : Prop) [Decidable cnd] (f : Game → Game)
    (hf : ∀ x, QuietStep x (f x)) {a x : Game} (h : QuietStep a x) :
    QuietStep a (if cnd then f x else x) := by
  split_ifs
  · exact QuietStep_trans h (hf x)
  · exact h

/-- The function `StartJump` is quiet: it records a sound, not a callback invocation. -/
theorem StartJump_quiet (G : Globals) (x : Game) : QuietStep x (StartJump G x) := by
  simp [QuietStep, StartJump, SetTRexState, callbackCount_append_sound]

/-- The function `EndJump` is quiet. -/
theorem EndJump_quiet (G : Globals) (x : Game) : QuietStep x (EndJump G x) := by
  unfold EndJump
  split_ifs
  · exact ⟨rfl, rfl, rfl, id⟩
  · exact QuietStep_refl x

/-- The function `SetSpeedDrop` is quiet. -/
theorem SetSpeedDrop_quiet (x : Game) : QuietStep x (SetSpeedDrop x) :=
  ⟨rfl, rfl, rfl, id⟩

/-- Entering the ducking state is quiet. -/
theorem SetTRexState_ducking_quiet (x : Game) :
    QuietStep x (SetTRexState T_REX_DUCKING x) := by
  simp [QuietStep, SetTRexState]

/-- The function `ResetTRex` after quiet steps is a first-run step. -/
theorem ResetTRex_firstRun (e : Env) {a x : Game} (c : Nat)
    (hq : QuietStep a x) (hc : a.OnStartedRunning = some c) :
    FirstRunStep a (ResetTRex e x) := by
  obtain ⟨q1, q2, q3, _⟩ := hq
  have hx : x.OnStartedRunning = some c := q1.trans hc
  unfold FirstRunStep
  cases hd : IsDuckKeyPressed e <;> cases hr : a.trex.did_start_running
    <;> simp [ResetTRex, SetTRexState, hd, hx, q2, q3, hr, callbackCount_append_started]
    <;> exact hc.symm

/-- A guarded `ResetTRex` after quiet steps is a first-run step. -/
theorem ResetTRex_ite_firstRun (cnd : Prop) [Decidable cnd] (e : Env) {a x : Game} (c : Nat)
    (hq : QuietStep a x) (hc : a.OnStartedRunning = some c) (hi : FlagSound a) :
    FirstRunStep a (if cnd then ResetTRex e x else x) := by
  split_ifs
  · exact ResetTRex_firstRun e c hq hc
  · obtain ⟨q1, q2, q3, q4⟩ := hq
    refine ⟨q1, fun hr => ⟨q2.trans hr, q3⟩, fun hr => Or.inl ⟨q2.trans hr, ?_, q3⟩⟩
    exact fun hx => hi hr (q4 hx)

/-- The function `HandleControls` is a first-run step when a callback is registered. -/
theorem HandleControls_firstRun (G : Globals) (e : Env) (g : Game) (c : Nat)
    (hc : g.OnStartedRunning = some c) (hi : FlagSound g) :
    FirstRunStep g (HandleControls G e g) := by
  unfold HandleControls
  simp only []
  apply ResetTRex_ite_firstRun _ e c _ hc hi
  apply QuietStep_ite _ _ SetTRexState_ducking_quiet
  apply QuietStep_ite _ _ SetSpeedDrop_quiet
  apply QuietStep_ite _ _ (EndJump_quiet G)
  exact QuietStep_ite _ _ (StartJump_quiet G) (QuietStep_refl g)

/-- After a first-run step the flag is sound. -/
theorem FirstRunStep_flagSound {a b : Game} (h : FirstRunStep a b) : FlagSound b := by
  intro hb
  cases hr : a.trex.did_start_running with
  | true =>
    have := (h.2.1 hr).1
    rw [hb] at this
    exact absurd this (by decide)
  | false =>
    rcases h.2.2 hr with ⟨_, h2, _⟩ | ⟨h1, _, _⟩
    · exact h2
    · rw [hb] at h1
      exact absurd h1 (by decide)

/-- A first-run step followed by a step that keeps callback, flag, state and
number of invocations is a first-run step. -/
theorem FirstRunStep_still {a b c : Game} (h : FirstRunStep a b)
    (ho : c.OnStartedRunning = b.OnStartedRunning)
    (hd : c.trex.did_start_running = b.trex.did_start_running)
    (hs : c.trex.state = b.trex.state)
    (hn : callbackCount c.events = callbackCount b.events) : FirstRunStep a c := by
  unfold FirstRunStep at h ⊢
  rw [ho, hd, hs, hn]
  exact h

/-- Two first-run steps in a row, the state in between not being running, make a
first-run step. -/
theorem FirstRunStep_trans {a b c : Game} (h1 : FirstRunStep a b)
    (hb : b.trex.state ≠ T_REX_RUNNING) (h2 : FirstRunStep b c) : FirstRunStep a c := by
  refine ⟨h2.1.trans h1.1, ?_, ?_⟩
  · intro hr
    obtain ⟨b1, b2⟩ := h1.2.1 hr
    obtain ⟨c1, c2⟩ := h2.2.1 b1
    exact ⟨c1, c2.trans b2⟩
  · intro hr
    rcases h1.2.2 hr with ⟨b1, _, b3⟩ | ⟨_, b2, _⟩
    · rcases h2.2.2 b1 with ⟨c1, c2, c3⟩ | ⟨c1, c2, c3⟩
      · exact Or.inl ⟨c1, c2, c3.trans b3⟩
      · exact Or.inr ⟨c1, c2, by rw [c3, b3]⟩
    · exact absurd b2 hb

/-- The function `UpdateAnimationFrames` touches neither callback, flag, state nor trace. -/
theorem UpdateAnimationFrames_still (dt : Nat) (g : Game) :
    (UpdateAnimationFrames dt g).OnStartedRunning = g.OnStartedRunning
    ∧ (UpdateAnimationFrames dt g).trex.did_start_running = g.trex.did_start_running
    ∧ (UpdateAnimationFrames dt g).trex.state = g.trex.state
    ∧ (UpdateAnimationFrames dt g).events = g.events := by
  unfold UpdateAnimationFrames
  simp only []
  split_ifs <;> simp

/-- The function `Blink` touches neither callback, flag, state nor trace. -/
theorem Blink_still (e : Env) (time : Int) (g : Game) :
    (Blink e time g).OnStartedRunning = g.OnStartedRunning
    ∧ (Blink e time g).trex.did_start_running = g.trex.did_start_running
    ∧ (Blink e time g).trex.state = g.trex.state
    ∧ (Blink e time g).events = g.events := by
  unfold Blink
  simp only []
  split_ifs <;> simp [SetBlinkDelay]

/-- The physics step touches neither callback, flag, state nor trace. -/
theorem UpdateJump_physics_still (G : Globals) (dt : Nat) (g : Game) :
    (UpdateJump_physics G dt g).OnStartedRunning = g.OnStartedRunning
    ∧ (UpdateJump_physics G dt g).trex.did_start_running = g.trex.did_start_running
    ∧ (UpdateJump_physics G dt g).trex.state = g.trex.state
    ∧ (UpdateJump_physics G dt g).events = g.events := by
  unfold UpdateJump_physics
  simp only []
  split_ifs <;> simp

/-- The function `UpdateJump` is a first-run step when a callback is registered. -/
theorem UpdateJump_firstRun (G : Globals) (e : Env) (dt : Nat) (g : Game) (c : Nat)
    (hc : g.OnStartedRunning = some c) (hi : FlagSound g) :
    FirstRunStep g (UpdateJump G e dt g) := by
  obtain ⟨p1, p2, p3, p4⟩ := UpdateJump_physics_still G dt g
  have hq : QuietStep g (UpdateJump_physics G dt g) :=
    ⟨p1, p2, by rw [p4], fun h => p3 ▸ h⟩
  unfold UpdateJump UpdateJump_checks
  simp only []
  apply ResetTRex_ite_firstRun _ e c _ hc hi
  apply QuietStep_ite _ _ (EndJump_quiet G)
  exact QuietStep_ite _ (fun x => { x with trex := { x.trex with reached_min_height := true } })
    (fun x => ⟨rfl, rfl, rfl, id⟩) hq

/-- The function `UpdateTRex` without a new callback is a first-run step when one
is registered. -/
theorem UpdateTRex_none_firstRun (G : Globals) (e : Env) (dt : Nat) (g : Game) (c : Nat)
    (hc : g.OnStartedRunning = some c) (hi : FlagSound g) :
    FirstRunStep g (UpdateTRex G e dt none g) := by
  rw [UpdateTRex_none]
  have h2 := HandleControls_firstRun G e g c hc hi
  obtain ⟨a1, a2, a3, a4⟩ := UpdateAnimationFrames_still dt (HandleControls G e g)
  have h3 : FirstRunStep g (UpdateAnimationFrames dt (HandleControls G e g)) :=
    FirstRunStep_still h2 a1 a2 a3 (by rw [a4])
  obtain ⟨b1, b2, b3, b4⟩ := Blink_still e e.ticks (UpdateAnimationFrames dt (HandleControls G e g))
  have h4 : FirstRunStep g
      (if (UpdateAnimationFrames dt (HandleControls G e g)).trex.state = T_REX_WAITING
        then Blink e e.ticks (UpdateAnimationFrames dt (HandleControls G e g))
        else UpdateAnimationFrames dt (HandleControls G e g)) := by
    split_ifs
    · exact FirstRunStep_still h3 b1 b2 b3 (by rw [b4])
    · exact h3
  generalize (if (UpdateAnimationFrames dt (HandleControls G e g)).trex.state = T_REX_WAITING
        then Blink e e.ticks (UpdateAnimationFrames dt (HandleControls G e g))
        else UpdateAnimationFrames dt (HandleControls G e g)) = g4 at h4 ⊢
  split_ifs with hj
  · have hnr : g4.trex.state ≠ T_REX_RUNNING := by rw [hj]; decide
    exact FirstRunStep_trans h4 hnr
      (UpdateJump_firstRun G e dt g4 c (h4.1.trans hc) (FirstRunStep_flagSound h4))
  · exact h4

/-- One `UpdateTRex` call with a callback, from a game whose flag is sound: the
flag stays sound; a set flag stays set with no invocation; a clear flag is set
exactly when the call ends in the running state, with exactly one invocation. -/
theorem UpdateTRex_firstRun (G : Globals) (e : Env) (dt : Nat) (c : Nat) (g : Game)
    (hi : FlagSound g) :
    FlagSound (UpdateTRex G e dt (some c) g)
    ∧ (g.trex.did_start_running = true →
        (UpdateTRex G e dt (some c) g).trex.did_start_running = true
        ∧ callbackCount (UpdateTRex G e dt (some c) g).events = callbackCount g.events)
    ∧ (g.trex.did_start_running = false →
        ((UpdateTRex G e dt (some c) g).trex.did_start_running = false
          ∧ (UpdateTRex G e dt (some c) g).trex.state ≠ T_REX_RUNNING
          ∧ callbackCount (UpdateTRex G e dt (some c) g).events = callbackCount g.events)
        ∨ ((UpdateTRex G e dt (some c) g).trex.did_start_running = true
          ∧ (UpdateTRex G e dt (some c) g).trex.state = T_REX_RUNNING
          ∧ callbackCount (UpdateTRex G e dt (some c) g).events
              = callbackCount g.events + 1)) := by
  rw [UpdateTRex_some]
  have h := UpdateTRex_none_firstRun G e dt { g with OnStartedRunning := some c } c rfl hi
  exact ⟨FirstRunStep_flagSound h, h.2.1, h.2.2⟩

/-- The game after `n + 1` calls is one `UpdateTRex` on the game after `n` calls. -/
theorem gameAfter_succ (G : Globals) (g : Game) (ks : List Tick) (n : Nat)
    (h : n < ks.length) :
    gameAfter G g ks (n + 1)
      = UpdateTRex G (ks.get ⟨n, h⟩).env (ks.get ⟨n, h⟩).delta_time
          (ks.get ⟨n, h⟩).on_started_running (gameAfter G g ks n) := by
  unfold gameAfter
  rw [List.take_succ, List.getElem?_eq_getElem h]
  simp only [runTicks, Option.toList, List.foldl_append, List.foldl_cons, List.foldl_nil,
    stepTick, List.get_eq_getElem]

/-- Before any call the game is the initial one. -/
theorem gameAfter_zero (G : Globals) (g : Game) (ks : List Tick) : gameAfter G g ks 0 = g := by
  simp only [gameAfter, List.take_zero, runTicks, List.foldl_nil]

/-- After all the calls the game is the result of the run. -/
theorem gameAfter_length (G : Globals) (g : Game) (ks : List Tick) :
    gameAfter G g ks ks.length = runTicks G g ks := by
  simp only [gameAfter, List.take_length]

/-- Along a sequence of calls that all pass a callback, started with the flag
clear and the character not running: the flag stays sound, it is set exactly
when some earlier call ended in the running state, and the number of invocations
is the initial one plus one once the flag is set. -/
theorem gameAfter_firstRun (G : Globals) (g : Game) (ks : List Tick)
    (hd : g.trex.did_start_running = false) (hs : g.trex.state ≠ T_REX_RUNNING)
    (hcb : ∀ k ∈ ks, k.on_started_running ≠ none) :
    ∀ n, n ≤ ks.length →
      FlagSound (gameAfter G g ks n)
      ∧ ((gameAfter G g ks n).trex.did_start_running = true
          ↔ ∃ m, m ≤ n ∧ (gameAfter G g ks m).trex.state = T_REX_RUNNING)
      ∧ callbackCount (gameAfter G g ks n).events
          = callbackCount g.events
            + (if (gameAfter G g ks n).trex.did_start_running = true then 1 else 0) := by
  intro n
  induction n with
  | zero =>
    intro _
    rw [gameAfter_zero]
    refine ⟨fun _ => hs, ?_, by simp [hd]⟩
    constructor
    · intro h; rw [hd] at h; exact absurd h (by decide)
    · rintro ⟨m, hm, hr⟩
      have : m = 0 := Nat.le_zero.mp hm
      subst this
      rw [gameAfter_zero] at hr
      exact absurd hr hs
  | succ n ih =>
    intro hn
    have hlt : n < ks.length := hn
    obtain ⟨i1, i2, i3⟩ := ih (Nat.le_of_lt hlt)
    obtain ⟨c, hc⟩ : ∃ c, (ks.get ⟨n, hlt⟩).on_started_running = some c :=
      Option.ne_none_iff_exists'.mp (hcb _ (List.get_mem ks n hlt))
    have hstep := gameAfter_succ G g ks n hlt
    rw [hc] at hstep
    obtain ⟨u1, u2, u3⟩ := UpdateTRex_firstRun G (ks.get ⟨n, hlt⟩).env
      (ks.get ⟨n, hlt⟩).delta_time c (gameAfter G g ks n) i1
    rw [← hstep] at u1 u2 u3
    refine ⟨u1, ?_, ?_⟩
    · constructor
      · intro hset
        cases hprev : (gameAfter G g ks n).trex.did_start_running with
        | true =>
          obtain ⟨m, hm, hr⟩ := i2.mp hprev
          exact ⟨m, Nat.le_succ_of_le hm, hr⟩
        | false =>
          rcases u3 hprev with ⟨v1, _, _⟩ | ⟨_, v2, _⟩
          · rw [hset] at v1; exact absurd v1 (by decide)
          · exact ⟨n + 1, le_refl _, v2⟩
      · rintro ⟨m, hm, hr⟩
        rcases Nat.lt_or_ge m (n + 1) with hlt1 | hge1
        · exact (u2 (i2.mpr ⟨m, Nat.lt_succ_iff.mp hlt1, hr⟩)).1
        · have hmeq : m = n + 1 := le_antisymm hm hge1
          subst hmeq
          by_contra hclear
          exact u1 (by simpa using hclear) hr
    · cases hprev : (gameAfter G g ks n).trex.did_start_running with
      | true =>
        obtain ⟨v1, v2⟩ := u2 hprev
        rw [v2, i3, hprev, v1]
      | false =>
        rw [hprev] at i3
        rcases u3 hprev with ⟨v1, _, v3⟩ | ⟨v1, _, v3⟩
        · rw [v3, i3, v1]
        · rw [v3, i3, v1]; simp

/-- The function `InitTRex` leaves the character waiting with `did_start_running` clear. -/
theorem InitTRex_flag (G : Globals) (e : Env) (g : Game) :
    (InitTRex G e g).trex.did_start_running = false
    ∧ (InitTRex G e g).trex.state = T_REX_WAITING := ⟨rfl, rfl⟩

/-- C6: in any sequence of `UpdateTRex` calls after `InitTRex`, each passing a
non-null callback, a call invokes the callback (exactly once) precisely when it
is the first call to end in the running state, and no other call invokes it;
`did_start_running`, once set, stays set; so over the whole sequence the callback
is invoked exactly once if the state ever becomes running and never otherwise. -/
theorem C6_callback_invoked_exactly_once (G : Globals) (e0 : Env) (g : Game) (ks : List Tick)
    (hcb : ∀ k ∈ ks, k.on_started_running ≠ none) :
    (∀ n, n < ks.length →
      (((gameAfter G (InitTRex G e0 g) ks (n + 1)).trex.state = T_REX_RUNNING
          ∧ ∀ m, m ≤ n → (gameAfter G (InitTRex G e0 g) ks m).trex.state ≠ T_REX_RUNNING) →
        callbackCount (gameAfter G (InitTRex G e0 g) ks (n + 1)).events
          = callbackCount (gameAfter G (InitTRex G e0 g) ks n).events + 1)
      ∧ (¬ ((gameAfter G (InitTRex G e0 g) ks (n + 1)).trex.state = T_REX_RUNNING
          ∧ ∀ m, m ≤ n → (gameAfter G (InitTRex G e0 g) ks m).trex.state ≠ T_REX_RUNNING) →
        callbackCount (gameAfter G (InitTRex G e0 g) ks (n + 1)).events
          = callbackCount (gameAfter G (InitTRex G e0 g) ks n).events)
      ∧ ((gameAfter G (InitTRex G e0 g) ks n).trex.did_start_running = true →
          (gameAfter G (InitTRex G e0 g) ks (n + 1)).trex.did_start_running = true))
    ∧ ((∃ m, m ≤ ks.length
          ∧ (gameAfter G (InitTRex G e0 g) ks m).trex.state = T_REX_RUNNING) →
        callbackCount (runTicks G (InitTRex G e0 g) ks).events
          = callbackCount (InitTRex G e0 g).events + 1)
    ∧ ((¬ ∃ m, m ≤ ks.length
          ∧ (gameAfter G (InitTRex G e0 g) ks m).trex.state = T_REX_RUNNING) →
        callbackCount (runTicks G (InitTRex G e0 g) ks).events
          = callbackCount (InitTRex G e0 g).events) := by
  obtain ⟨hd0, hs0⟩ := InitTRex_flag G e0 g
  have hs0' : (InitTRex G e0 g).trex.state ≠ T_REX_RUNNING := by rw [hs0]; decide
  have inv := gameAfter_firstRun G (InitTRex G e0 g) ks hd0 hs0' hcb
  generalize InitTRex G e0 g = g0 at inv ⊢
  refine ⟨?_, ?_, ?_⟩
  · intro n hn
    obtain ⟨_, a2, a3⟩ := inv n (Nat.le_of_lt hn)
    obtain ⟨_, b2, b3⟩ := inv (n + 1) hn
    refine ⟨?_, ?_, ?_⟩
    · rintro ⟨hr, hnone⟩
      have hb : (gameAfter G g0 ks (n + 1)).trex.did_start_running = true :=
        b2.mpr ⟨n + 1, le_refl _, hr⟩
      have ha : ¬ (gameAfter G g0 ks n).trex.did_start_running = true := by
        intro h
        obtain ⟨m, hm, hmr⟩ := a2.mp h
        exact hnone m hm hmr
      rw [b3, a3, if_pos hb, if_neg ha]
    · intro hcond
      by_cases ha : (gameAfter G g0 ks n).trex.did_start_running = true
      · obtain ⟨m, hm, hmr⟩ := a2.mp ha
        have hb : (gameAfter G g0 ks (n + 1)).trex.did_start_running = true :=
          b2.mpr ⟨m, Nat.le_succ_of_le hm, hmr⟩
        rw [b3, a3, if_pos hb, if_pos ha]
      · have hb : ¬ (gameAfter G g0 ks (n + 1)).trex.did_start_running = true := by
          intro h
          obtain ⟨m, hm, hmr⟩ := b2.mp h
          rcases Nat.lt_or_ge m (n + 1) with h1 | h1
          · exact ha (a2.mpr ⟨m, Nat.lt_succ_iff.mp h1, hmr⟩)
          · have hmeq : m = n + 1 := le_antisymm hm h1
            subst hmeq
            exact hcond ⟨hmr, fun m' hm' hr' => ha (a2.mpr ⟨m', hm', hr'⟩)⟩
        rw [b3, a3, if_neg hb, if_neg ha]
    · intro ha
      obtain ⟨m, hm, hmr⟩ := a2.mp ha
      exact b2.mpr ⟨m, Nat.le_succ_of_le hm, hmr⟩
  · intro hex
    obtain ⟨_, c2, c3⟩ := inv ks.length (le_refl _)
    rw [if_pos (c2.mpr hex), gameAfter_length] at c3
    exact c3
  · intro hnex
    obtain ⟨_, c2, c3⟩ := inv ks.length (le_refl _)
    rw [if_neg (fun h => hnex (c2.mp h)), gameAfter_length] at c3
    exact c3

/-- In `quickRunTicks` the second call is the first to end in the running state,
and the trace of the run holds the jump sound followed by one invocation of the
callback passed to that call. -/
theorem quickRunTicks_run :
    (gameAfter sampleGlobals sampleGame quickRunTicks 0).trex.state = T_REX_WAITING
    ∧ (gameAfter sampleGlobals sampleGame quickRunTicks 1).trex.state = T_REX_DUCKING
    ∧ (gameAfter sampleGlobals sampleGame quickRunTicks 2).trex.state = T_REX_RUNNING
    ∧ (runTicks sampleGlobals sampleGame quickRunTicks).events
        = [Event.sound_press, Event.started_running 7] := by
  with_unfolding_all decide

/-- C6 at the two-call run `quickRunTicks` after `InitTRex` on the blank game. -/
theorem C6_callback_invoked_exactly_once_witness :
    (∀ k ∈ quickRunTicks, k.on_started_running ≠ none)
    ∧ (∀ n, n < quickRunTicks.length →
      (((gameAfter sampleGlobals (InitTRex sampleGlobals idleEnv blankGame) quickRunTicks
              (n + 1)).trex.state = T_REX_RUNNING
          ∧ ∀ m, m ≤ n →
              (gameAfter sampleGlobals (InitTRex sampleGlobals idleEnv blankGame) quickRunTicks
                m).trex.state ≠ T_REX_RUNNING) →
        callbackCount (gameAfter sampleGlobals (InitTRex sampleGlobals idleEnv blankGame)
            quickRunTicks (n + 1)).events
          = callbackCount (gameAfter sampleGlobals (InitTRex sampleGlobals idleEnv blankGame)
              quickRunTicks n).events + 1)
      ∧ (¬ ((gameAfter sampleGlobals (InitTRex sampleGlobals idleEnv blankGame) quickRunTicks
              (n + 1)).trex.state = T_REX_RUNNING
          ∧ ∀ m, m ≤ n →
              (gameAfter sampleGlobals (InitTRex sampleGlobals idleEnv blankGame) quickRunTicks
                m).trex.state ≠ T_REX_RUNNING) →
        callbackCount (gameAfter sampleGlobals (InitTRex sampleGlobals idleEnv blankGame)
            quickRunTicks (n + 1)).events
          = callbackCount (gameAfter sampleGlobals (InitTRex sampleGlobals idleEnv blankGame)
              quickRunTicks n).events)
      ∧ ((gameAfter sampleGlobals (InitTRex sampleGlobals idleEnv blankGame) quickRunTicks
            n).trex.did_start_running = true →
          (gameAfter sampleGlobals (InitTRex sampleGlobals idleEnv blankGame) quickRunTicks
            (n + 1)).trex.did_start_running = true))
    ∧ ((∃ m, m ≤ quickRunTicks.length
          ∧ (gameAfter sampleGlobals (InitTRex sampleGlobals idleEnv blankGame) quickRunTicks
              m).trex.state = T_REX_RUNNING) →
        callbackCount (runTicks sampleGlobals (InitTRex sampleGlobals idleEnv blankGame)
            quickRunTicks).events
          = callbackCount (InitTRex sampleGlobals idleEnv blankGame).events + 1)
    ∧ ((¬ ∃ m, m ≤ quickRunTicks.length
          ∧ (gameAfter sampleGlobals (InitTRex sampleGlobals idleEnv blankGame) quickRunTicks
              m).trex.state = T_REX_RUNNING) →
        callbackCount (runTicks sampleGlobals (InitTRex sampleGlobals idleEnv blankGame)
            quickRunTicks).events
          = callbackCount (InitTRex sampleGlobals idleEnv blankGame).events) :=
  ⟨by decide,
    C6_callback_invoked_exactly_once sampleGlobals idleEnv blankGame quickRunTicks (by decide)⟩

/-! ## Ducking -/

/-- What `SetTRexState T_REX_DUCKING` writes. -/
theorem SetTRexState_ducking_fields (g : Game) :
    (SetTRexState T_REX_DUCKING g).trex.state = T_REX_DUCKING
    ∧ (SetTRexState T_REX_DUCKING g).trex.curr_frame = 0
    ∧ (SetTRexState T_REX_DUCKING g).trex.anim_frame = animationFramesOf T_REX_DUCKING
    ∧ (SetTRexState T_REX_DUCKING g).trex.pos = g.trex.pos
    ∧ (SetTRexState T_REX_DUCKING g).trex.jump_velocity = g.trex.jump_velocity
    ∧ (SetTRexState T_REX_DUCKING g).trex.speed_drop = g.trex.speed_drop
    ∧ (SetTRexState T_REX_DUCKING g).trex.reached_min_height = g.trex.reached_min_height := by
  simp [SetTRexState]

/-- With the duck key down and the jump key up, `HandleControls` on a running
character is `SetTRexState T_REX_DUCKING`. -/
theorem HandleControls_duck (G : Globals) (e : Env) (g : Game)
    (hs : g.trex.state = T_REX_RUNNING)
    (kj : IsJumpKeyPressed e = false) (kd : IsDuckKeyPressed e = true) :
    HandleControls G e g = SetTRexState T_REX_DUCKING g := by
  have h1 := (SetTRexState_ducking_fields g).1
  simp [HandleControls, hs, kj, kd, h1]

/-- C7: for a running character with the duck key held and the jump key up,
`HandleControls` leaves the state ducking with `curr_frame = 0` and the ducking
animation, and keeps `pos`, `jump_velocity`, `speed_drop` and
`reached_min_height`. -/
theorem C7_running_ducks_on_duck_key (G : Globals) (e : Env) (g : Game)
    (hs : g.trex.state = T_REX_RUNNING)
    (kd : IsDuckKeyPressed e = true) (kj : IsJumpKeyPressed e = false) :
    (HandleControls G e g).trex.state = T_REX_DUCKING
    ∧ (HandleControls G e g).trex.curr_frame = 0
    ∧ (HandleControls G e g).trex.anim_frame = animationFramesOf T_REX_DUCKING
    ∧ (HandleControls G e g).trex.pos = g.trex.pos
    ∧ (HandleControls G e g).trex.jump_velocity = g.trex.jump_velocity
    ∧ (HandleControls G e g).trex.speed_drop = g.trex.speed_drop
    ∧ (HandleControls G e g).trex.reached_min_height = g.trex.reached_min_height := by
  rw [HandleControls_duck G e g hs kj kd]
  exact SetTRexState_ducking_fields g

/-- C7 at the sample game with the character running and the down key down. -/
theorem C7_running_ducks_on_duck_key_witness :
    (groundedGame T_REX_RUNNING).trex.state = T_REX_RUNNING
    ∧ IsDuckKeyPressed duckEnv = true ∧ IsJumpKeyPressed duckEnv = false
    ∧ (HandleControls sampleGlobals duckEnv (groundedGame T_REX_RUNNING)).trex.state
        = T_REX_DUCKING
    ∧ (HandleControls sampleGlobals duckEnv (groundedGame T_REX_RUNNING)).trex.curr_frame = 0
    ∧ (HandleControls sampleGlobals duckEnv (groundedGame T_REX_RUNNING)).trex.anim_frame
        = animationFramesOf T_REX_DUCKING
    ∧ (HandleControls sampleGlobals duckEnv (groundedGame T_REX_RUNNING)).trex.pos
        = (groundedGame T_REX_RUNNING).trex.pos
    ∧ (HandleControls sampleGlobals duckEnv (groundedGame T_REX_RUNNING)).trex.jump_velocity
        = (groundedGame T_REX_RUNNING).trex.jump_velocity
    ∧ (HandleControls sampleGlobals duckEnv (groundedGame T_REX_RUNNING)).trex.speed_drop
        = (groundedGame T_REX_RUNNING).trex.speed_drop
    ∧ (HandleControls sampleGlobals duckEnv (groundedGame T_REX_RUNNING)).trex.reached_min_height
        = (groundedGame T_REX_RUNNING).trex.reached_min_height :=
  ⟨rfl, rfl, rfl,
    C7_running_ducks_on_duck_key sampleGlobals duckEnv (groundedGame T_REX_RUNNING) rfl rfl rfl⟩

/-- With the duck key up, `HandleControls` on a ducking character is `ResetTRex`. -/
theorem HandleControls_unduck (G : Globals) (e : Env) (g : Game)
    (hs : g.trex.state = T_REX_DUCKING) (kd : IsDuckKeyPressed e = false) :
    HandleControls G e g = ResetTRex e g := by
  simp [HandleControls, hs, kd]

/-- With the duck key down, `HandleControls` leaves a ducking character as it is. -/
theorem HandleControls_keep_ducking (G : Globals) (e : Env) (g : Game)
    (hs : g.trex.state = T_REX_DUCKING) (kd : IsDuckKeyPressed e = true) :
    HandleControls G e g = g := by
  simp [HandleControls, hs, kd]

/-- C8: for a ducking character, with the duck key up `HandleControls` leaves the
state running with `pos.y = ground_pos`, `jump_velocity = 0` and both jump flags
clear, whatever the jump key; with the duck key held the state stays ducking,
whatever the jump key. -/
theorem C8_ducking_follows_duck_key (G : Globals) (e : Env) (g : Game)
    (hs : g.trex.state = T_REX_DUCKING) :
    (IsDuckKeyPressed e = false →
        (HandleControls G e g).trex.state = T_REX_RUNNING
        ∧ (HandleControls G e g).trex.pos.y = g.trex.ground_pos
        ∧ (HandleControls G e g).trex.jump_velocity = 0
        ∧ (HandleControls G e g).trex.speed_drop = false
        ∧ (HandleControls G e g).trex.reached_min_height = false)
    ∧ (IsDuckKeyPressed e = true → (HandleControls G e g).trex.state = T_REX_DUCKING) := by
  constructor
  · intro kd
    rw [HandleControls_unduck G e g hs kd]
    obtain ⟨r1, _, r3, r4, r5, r6, _⟩ := ResetTRex_fields e g
    rw [kd] at r6
    exact ⟨r6, r1, r3, r4, r5⟩
  · intro kd
    rw [HandleControls_keep_ducking G e g hs kd]
    exact hs

/-- C8 at the sample game with the character ducking and the space key down. -/
theorem C8_ducking_follows_duck_key_witness :
    (groundedGame T_REX_DUCKING).trex.state = T_REX_DUCKING
    ∧ (IsDuckKeyPressed jumpEnv = false →
        (HandleControls sampleGlobals jumpEnv (groundedGame T_REX_DUCKING)).trex.state
          = T_REX_RUNNING
        ∧ (HandleControls sampleGlobals jumpEnv (groundedGame T_REX_DUCKING)).trex.pos.y
          = (groundedGame T_REX_DUCKING).trex.ground_pos
        ∧ (HandleControls sampleGlobals jumpEnv (groundedGame T_REX_DUCKING)).trex.jump_velocity
          = 0
        ∧ (HandleControls sampleGlobals jumpEnv (groundedGame T_REX_DUCKING)).trex.speed_drop
          = false
        ∧ (HandleControls sampleGlobals jumpEnv
            (groundedGame T_REX_DUCKING)).trex.reached_min_height = false)
    ∧ (IsDuckKeyPressed jumpEnv = true →
        (HandleControls sampleGlobals jumpEnv (groundedGame T_REX_DUCKING)).trex.state
          = T_REX_DUCKING) :=
  ⟨rfl, C8_ducking_follows_duck_key sampleGlobals jumpEnv (groundedGame T_REX_DUCKING) rfl⟩

/-! ## The collision set -/

/-- C9: `GetTRexCollisionSet` returns a set with the `len` of its template (1 when
ducking, 6 otherwise) and ten entries, in which every rectangle below `len` is the
template's rectangle moved by `pos` with the template's width and height, and
every entry from `len` on is the template's; the result depends on the character's
state and position only, so two queries at the same state and position return
equal sets. -/
theorem C9_collision_set_is_translated_template (g : Game) :
    (GetTRexCollisionSet g).len = (collisionTemplate g).len
    ∧ (collisionTemplate g).len = (if g.trex.state = T_REX_DUCKING then 1 else 6)
    ∧ (GetTRexCollisionSet g).rects.length = 10
    ∧ (collisionTemplate g).rects.length = 10
    ∧ (∀ i : Nat, (i : Int) < (collisionTemplate g).len →
        ((GetTRexCollisionSet g).rects.getD i zeroRect).x
            = ((collisionTemplate g).rects.getD i zeroRect).x + g.trex.pos.x
        ∧ ((GetTRexCollisionSet g).rects.getD i zeroRect).y
            = ((collisionTemplate g).rects.getD i zeroRect).y + g.trex.pos.y
        ∧ ((GetTRexCollisionSet g).rects.getD i zeroRect).width
            = ((collisionTemplate g).rects.getD i zeroRect).width
        ∧ ((GetTRexCollisionSet g).rects.getD i zeroRect).height
            = ((collisionTemplate g).rects.getD i zeroRect).height)
    ∧ (∀ i : Nat, (collisionTemplate g).len ≤ (i : Int) →
        (GetTRexCollisionSet g).rects.getD i zeroRect
          = (collisionTemplate g).rects.getD i zeroRect)
    ∧ (∀ g2 : Game, g2.trex.state = g.trex.state → g2.trex.pos = g.trex.pos →
        GetTRexCollisionSet g2 = GetTRexCollisionSet g) := by
  refine ⟨rfl, ?_, ?_, ?_, ?_, ?_, ?_⟩
  · unfold collisionTemplate
    split_ifs <;> rfl
  · unfold GetTRexCollisionSet
    split_ifs <;> rfl
  · unfold collisionTemplate
    split_ifs <;> rfl
  · intro i hi
    by_cases hs : g.trex.state = T_REX_DUCKING
    · simp only [collisionTemplate, hs, if_true, collisionSetAt, trex_collision_sets,
        List.getD_cons_zero, List.getD_cons_succ] at hi
      have h0 : i = 0 := by omega
      subst h0
      simp [GetTRexCollisionSet, collisionTemplate, hs, collisionSetAt, trex_collision_sets,
        translateRects]
    · simp only [collisionTemplate, hs, if_false, collisionSetAt, trex_collision_sets,
        List.getD_cons_zero, List.getD_cons_succ] at hi
      have h6 : i < 6 := by omega
      interval_cases i <;>
        simp [GetTRexCollisionSet, collisionTemplate, hs, collisionSetAt, trex_collision_sets,
          translateRects]
  · intro i hi
    by_cases hs : g.trex.state = T_REX_DUCKING
    · simp only [collisionTemplate, hs, if_true, collisionSetAt, trex_collision_sets,
        List.getD_cons_zero, List.getD_cons_succ] at hi
      rcases Nat.lt_or_ge i 10 with h10 | h10
      · have h1 : 1 ≤ i := by omega
        interval_cases i <;>
          simp [GetTRexCollisionSet, collisionTemplate, hs, collisionSetAt, trex_collision_sets,
            translateRects]
      · rw [List.getD_eq_default _ _ (by
            unfold GetTRexCollisionSet; simp only [hs, if_true]; exact h10),
          List.getD_eq_default _ _ (by
            unfold collisionTemplate; simp only [hs, if_true]; exact h10)]
    · simp only [collisionTemplate, hs, if_false, collisionSetAt, trex_collision_sets,
        List.getD_cons_zero, List.getD_cons_succ] at hi
      rcases Nat.lt_or_ge i 10 with h10 | h10
      · have h1 : 6 ≤ i := by omega
        interval_cases i <;>
          simp [GetTRexCollisionSet, collisionTemplate, hs, collisionSetAt, trex_collision_sets,
            translateRects]
      · rw [List.getD_eq_default _ _ (by
            unfold GetTRexCollisionSet; simp only [hs, if_false]; exact h10),
          List.getD_eq_default _ _ (by
            unfold collisionTemplate; simp only [hs, if_false]; exact h10)]
  · intro g2 h1 h2
    unfold GetTRexCollisionSet
    rw [h1, h2]

/-! ## Initialisation -/

/-- C10: whatever the prior game, the clock value and the random value, `InitTRex`
leaves the character waiting at `pos.x = 50`,
`pos.y = ground_pos = WINDOW_HEIGHT - 47 - GROUND_OFFSET`, with
`min_jump_height = ground_pos - MIN_JUMP_HEIGHT`, `jump_velocity = 0`, the three
flags clear, `time = 0`, `curr_frame = 1`, `anim_start_time` the clock value and
the waiting animation; the character record does not depend on the prior game. -/
theorem C10_init_resets_character (G : Globals) (e : Env) (g : Game) :
    (InitTRex G e g).trex.state = T_REX_WAITING
    ∧ (InitTRex G e g).trex.pos.x = 50
    ∧ (InitTRex G e g).trex.pos.y = (InitTRex G e g).trex.ground_pos
    ∧ (InitTRex G e g).trex.ground_pos = G.WINDOW_HEIGHT - 47 - G.GROUND_OFFSET
    ∧ (InitTRex G e g).trex.min_jump_height
        = (InitTRex G e g).trex.ground_pos - G.MIN_JUMP_HEIGHT
    ∧ (InitTRex G e g).trex.jump_velocity = 0
    ∧ (InitTRex G e g).trex.speed_drop = false
    ∧ (InitTRex G e g).trex.reached_min_height = false
    ∧ (InitTRex G e g).trex.did_start_running = false
    ∧ (InitTRex G e g).trex.time = 0
    ∧ (InitTRex G e g).trex.curr_frame = 1
    ∧ (InitTRex G e g).trex.anim_start_time = e.ticks
    ∧ (InitTRex G e g).trex.anim_frame = animationFramesOf T_REX_WAITING
    ∧ (∀ g2 : Game, (InitTRex G e g2).trex = (InitTRex G e g).trex) :=
  ⟨rfl, rfl, rfl, rfl, rfl, rfl, rfl, rfl, rfl, rfl, rfl, rfl, rfl, fun _ => rfl⟩

/-! ## Independence from the clock and the random source -/

/-- Equality of kinematics, field by field. -/
theorem kinematics_eq_iff (a b : Game) :
    kinematics a = kinematics b ↔
      a.trex.state = b.trex.state ∧ a.trex.pos = b.trex.pos
      ∧ a.trex.jump_velocity = b.trex.jump_velocity
      ∧ a.trex.speed_drop = b.trex.speed_drop
      ∧ a.trex.reached_min_height = b.trex.reached_min_height
      ∧ a.trex.did_start_running = b.trex.did_start_running
      ∧ a.trex.ground_pos = b.trex.ground_pos
      ∧ a.trex.min_jump_height = b.trex.min_jump_height := by
  simp [kinematics]

/-- A guarded step whose guard and whose effect are determined by the kinematics
maps games of equal kinematics to games of equal kinematics. -/
theorem kinematics_ite (P Q : Game → Prop) [DecidablePred P] [DecidablePred Q]
    (f f2 : Game → Game)
    (hP : ∀ a b, kinematics a = kinematics b → (P a ↔ Q b))
    (hf : ∀ a b, kinematics a = kinematics b → kinematics (f a) = kinematics (f2 b))
    {x y : Game} (h : kinematics x = kinematics y) :
    kinematics (if P x then f x else x) = kinematics (if Q y then f2 y else y) := by
  by_cases hx : P x
  · rw [if_pos hx, if_pos ((hP x y h).mp hx)]
    exact hf x y h
  · rw [if_neg hx, if_neg (fun hy => hx ((hP x y h).mpr hy))]
    exact h

/-- The kinematics after `SetTRexState` are determined by the kinematics before. -/
theorem SetTRexState_kinematics (s : TRexState) (a b : Game)
    (h : kinematics a = kinematics b) :
    kinematics (SetTRexState s a) = kinematics (SetTRexState s b) := by
  rw [kinematics_eq_iff] at h
  obtain ⟨h1, h2, h3, h4, h5, h6, h7, h8⟩ := h
  unfold SetTRexState
  simp only [h6]
  split_ifs <;> (try split) <;> (try split) <;> simp [kinematics, h2, h3, h4, h5, h6, h7, h8]

/-- The kinematics after `StartJump` are determined by the kinematics before. -/
theorem StartJump_kinematics (G : Globals) (a b : Game)
    (h : kinematics a = kinematics b) :
    kinematics (StartJump G a) = kinematics (StartJump G b) := by
  have hs := SetTRexState_kinematics T_REX_JUMPING a b h
  rw [kinematics_eq_iff] at hs ⊢
  obtain ⟨h1, h2, _, h4, h5, h6, h7, h8⟩ := hs
  exact ⟨h1, h2, rfl, h4, h5, h6, h7, h8⟩

/-- The kinematics after `EndJump` are determined by the kinematics before. -/
theorem EndJump_kinematics (G : Globals) (a b : Game)
    (h : kinematics a = kinematics b) :
    kinematics (EndJump G a) = kinematics (EndJump G b) := by
  rw [kinematics_eq_iff] at h
  obtain ⟨h1, h2, h3, h4, h5, h6, h7, h8⟩ := h
  unfold EndJump
  rw [h3, h5]
  split_ifs <;> simp [kinematics, h1, h2, h3, h4, h5, h6, h7, h8]

/-- The kinematics after `SetSpeedDrop` are determined by the kinematics before. -/
theorem SetSpeedDrop_kinematics (a b : Game) (h : kinematics a = kinematics b) :
    kinematics (SetSpeedDrop a) = kinematics (SetSpeedDrop b) := by
  rw [kinematics_eq_iff] at h
  obtain ⟨h1, h2, _, _, h5, h6, h7, h8⟩ := h
  simp [kinematics, SetSpeedDrop, h1, h2, h5, h6, h7, h8]

/-- The kinematics after `ResetTRex` are determined by the kinematics before and
the duck key. -/
theorem ResetTRex_kinematics (e1 e2 : Env) (hd : IsDuckKeyPressed e1 = IsDuckKeyPressed e2)
    (a b : Game) (h : kinematics a = kinematics b) :
    kinematics (ResetTRex e1 a) = kinematics (ResetTRex e2 b) := by
  have hk : kinematics
        ({ a with trex :=
            { a.trex with
              pos := { a.trex.pos with y := a.trex.ground_pos }
              jump_velocity := 0
              speed_drop := false
              reached_min_height := false } } : Game)
      = kinematics
        ({ b with trex :=
            { b.trex with
              pos := { b.trex.pos with y := b.trex.ground_pos }
              jump_velocity := 0
              speed_drop := false
              reached_min_height := false } } : Game) := by
    rw [kinematics_eq_iff] at h
    obtain ⟨h1, h2, _, _, _, h6, h7, h8⟩ := h
    simp [kinematics, h1, h2, h6, h7, h8]
  unfold ResetTRex
  simp only [hd]
  split_ifs
  · exact SetTRexState_kinematics T_REX_DUCKING _ _ hk
  · exact SetTRexState_kinematics T_REX_RUNNING _ _ hk

/-- The kinematics after `HandleControls` are determined by the kinematics before
and the two keys. -/
theorem HandleControls_kinematics (G : Globals) (e1 e2 : Env)
    (hj : IsJumpKeyPressed e1 = IsJumpKeyPressed e2)
    (hd : IsDuckKeyPressed e1 = IsDuckKeyPressed e2)
    (a b : Game) (h : kinematics a = kinematics b) :
    kinematics (HandleControls G e1 a) = kinematics (HandleControls G e2 b) := by
  have st : ∀ x y : Game, kinematics x = kinematics y → x.trex.state = y.trex.state :=
    fun x y hxy => ((kinematics_eq_iff x y).mp hxy).1
  have sd : ∀ x y : Game, kinematics x = kinematics y → x.trex.speed_drop = y.trex.speed_drop :=
    fun x y hxy => ((kinematics_eq_iff x y).mp hxy).2.2.2.1
  unfold HandleControls
  simp only []
  refine kinematics_ite
    (fun g => g.trex.state = T_REX_DUCKING ∧ IsDuckKeyPressed e1 = false)
    (fun g => g.trex.state = T_REX_DUCKING ∧ IsDuckKeyPressed e2 = false)
    (ResetTRex e1) (ResetTRex e2)
    (fun x y hxy => by dsimp only; rw [st x y hxy, hd]) (ResetTRex_kinematics e1 e2 hd) ?_
  refine kinematics_ite
    (fun g => g.trex.state = T_REX_RUNNING ∧ IsDuckKeyPressed e1 = true)
    (fun g => g.trex.state = T_REX_RUNNING ∧ IsDuckKeyPressed e2 = true)
    (SetTRexState T_REX_DUCKING) (SetTRexState T_REX_DUCKING)
    (fun x y hxy => by dsimp only; rw [st x y hxy, hd]) (SetTRexState_kinematics T_REX_DUCKING) ?_
  refine kinematics_ite
    (fun g => g.trex.state = T_REX_JUMPING ∧ IsDuckKeyPressed e1 = true
      ∧ g.trex.speed_drop = false)
    (fun g => g.trex.state = T_REX_JUMPING ∧ IsDuckKeyPressed e2 = true
      ∧ g.trex.speed_drop = false)
    SetSpeedDrop SetSpeedDrop
    (fun x y hxy => by dsimp only; rw [st x y hxy, sd x y hxy, hd]) SetSpeedDrop_kinematics ?_
  refine kinematics_ite
    (fun g => g.trex.state = T_REX_JUMPING ∧ IsJumpKeyPressed e1 = false)
    (fun g => g.trex.state = T_REX_JUMPING ∧ IsJumpKeyPressed e2 = false)
    (EndJump G) (EndJump G)
    (fun x y hxy => by dsimp only; rw [st x y hxy, hj]) (EndJump_kinematics G) ?_
  exact kinematics_ite
    (fun g => g.trex.state ≠ T_REX_JUMPING ∧ g.trex.state ≠ T_REX_DUCKING
      ∧ IsJumpKeyPressed e1 = true)
    (fun g => g.trex.state ≠ T_REX_JUMPING ∧ g.trex.state ≠ T_REX_DUCKING
      ∧ IsJumpKeyPressed e2 = true)
    (StartJump G) (StartJump G)
    (fun x y hxy => by dsimp only; rw [st x y hxy, hj]) (StartJump_kinematics G) h

/-- The function `UpdateAnimationFrames` leaves the kinematics as they are. -/
theorem UpdateAnimationFrames_kinematics (dt : Nat) (g : Game) :
    kinematics (UpdateAnimationFrames dt g) = kinematics g := by
  unfold UpdateAnimationFrames
  simp only []
  split_ifs <;> rfl

/-- The function `Blink` leaves the kinematics as they are. -/
theorem Blink_kinematics (e : Env) (time : Int) (g : Game) :
    kinematics (Blink e time g) = kinematics g := by
  unfold Blink
  simp only []
  split_ifs <;> rfl

/-- The kinematics after the physics step are determined by the kinematics
before and `delta_time`. -/
theorem UpdateJump_physics_kinematics (G : Globals) (dt : Nat) (a b : Game)
    (h : kinematics a = kinematics b) :
    kinematics (UpdateJump_physics G dt a) = kinematics (UpdateJump_physics G dt b) := by
  rw [kinematics_eq_iff] at h
  obtain ⟨h1, h2, h3, h4, h5, h6, h7, h8⟩ := h
  unfold UpdateJump_physics
  simp only [h1, h2, h3, h4]
  split_ifs <;> simp [kinematics, h1, h2, h3, h4, h5, h6, h7, h8]

/-- The kinematics after the checks of `UpdateJump` are determined by the
kinematics before and the duck key. -/
theorem UpdateJump_checks_kinematics (G : Globals) (e1 e2 : Env)
    (hd : IsDuckKeyPressed e1 = IsDuckKeyPressed e2)
    (a b : Game) (h : kinematics a = kinematics b) :
    kinematics (UpdateJump_checks G e1 a) = kinematics (UpdateJump_checks G e2 b) := by
  have fld : ∀ x y : Game, kinematics x = kinematics y →
      x.trex.pos = y.trex.pos ∧ x.trex.speed_drop = y.trex.speed_drop
      ∧ x.trex.ground_pos = y.trex.ground_pos
      ∧ x.trex.min_jump_height = y.trex.min_jump_height := by
    intro x y hxy
    rw [kinematics_eq_iff] at hxy
    exact ⟨hxy.2.1, hxy.2.2.2.1, hxy.2.2.2.2.2.2.1, hxy.2.2.2.2.2.2.2⟩
  unfold UpdateJump_checks
  simp only []
  refine kinematics_ite
    (fun g => g.trex.pos.y > g.trex.ground_pos) (fun g => g.trex.pos.y > g.trex.ground_pos)
    (ResetTRex e1) (ResetTRex e2)
    (fun x y hxy => by dsimp only; rw [(fld x y hxy).1, (fld x y hxy).2.2.1])
    (ResetTRex_kinematics e1 e2 hd) ?_
  refine kinematics_ite
    (fun g => g.trex.pos.y < G.MAX_JUMP_HEIGHT ∨ g.trex.speed_drop = true)
    (fun g => g.trex.pos.y < G.MAX_JUMP_HEIGHT ∨ g.trex.speed_drop = true)
    (EndJump G) (EndJump G)
    (fun x y hxy => by dsimp only; rw [(fld x y hxy).1, (fld x y hxy).2.1])
    (EndJump_kinematics G) ?_
  exact kinematics_ite
    (fun g => g.trex.pos.y < g.trex.min_jump_height ∨ g.trex.speed_drop = true)
    (fun g => g.trex.pos.y < g.trex.min_jump_height ∨ g.trex.speed_drop = true)
    (fun g => { g with trex := { g.trex with reached_min_height := true } })
    (fun g => { g with trex := { g.trex with reached_min_height := true } })
    (fun x y hxy => by
      dsimp only; rw [(fld x y hxy).1, (fld x y hxy).2.1, (fld x y hxy).2.2.2])
    (fun x y hxy => by
      rw [kinematics_eq_iff] at hxy
      obtain ⟨h1, h2, h3, h4, _, h6, h7, h8⟩ := hxy
      simp [kinematics, h1, h2, h3, h4, h6, h7, h8])
    h

/-- The kinematics after `UpdateJump` are determined by the kinematics before,
`delta_time` and the duck key. -/
theorem UpdateJump_kinematics (G : Globals) (e1 e2 : Env)
    (hd : IsDuckKeyPressed e1 = IsDuckKeyPressed e2) (dt : Nat)
    (a b : Game) (h : kinematics a = kinematics b) :
    kinematics (UpdateJump G e1 dt a) = kinematics (UpdateJump G e2 dt b) := by
  unfold UpdateJump
  exact UpdateJump_checks_kinematics G e1 e2 hd _ _ (UpdateJump_physics_kinematics G dt a b h)

/-- The kinematics after `UpdateTRex` without a new callback are determined by
the kinematics before, the two keys and `delta_time`. -/
theorem UpdateTRex_none_kinematics (G : Globals) (e1 e2 : Env)
    (hj : IsJumpKeyPressed e1 = IsJumpKeyPressed e2)
    (hd : IsDuckKeyPressed e1 = IsDuckKeyPressed e2) (dt : Nat)
    (a b : Game) (h : kinematics a = kinematics b) :
    kinematics (UpdateTRex G e1 dt none a) = kinematics (UpdateTRex G e2 dt none b) := by
  rw [UpdateTRex_none, UpdateTRex_none]
  have h2 := HandleControls_kinematics G e1 e2 hj hd a b h
  have h3 : kinematics (UpdateAnimationFrames dt (HandleControls G e1 a))
      = kinematics (UpdateAnimationFrames dt (HandleControls G e2 b)) := by
    rw [UpdateAnimationFrames_kinematics, UpdateAnimationFrames_kinematics]
    exact h2
  have h4 : kinematics
        (if (UpdateAnimationFrames dt (HandleControls G e1 a)).trex.state = T_REX_WAITING
          then Blink e1 e1.ticks (UpdateAnimationFrames dt (HandleControls G e1 a))
          else UpdateAnimationFrames dt (HandleControls G e1 a))
      = kinematics
        (if (UpdateAnimationFrames dt (HandleControls G e2 b)).trex.state = T_REX_WAITING
          then Blink e2 e2.ticks (UpdateAnimationFrames dt (HandleControls G e2 b))
          else UpdateAnimationFrames dt (HandleControls G e2 b)) := by
    split_ifs <;> (try rw [Blink_kinematics]) <;> (try rw [Blink_kinematics]) <;> exact h3
  generalize (if (UpdateAnimationFrames dt (HandleControls G e1 a)).trex.state = T_REX_WAITING
          then Blink e1 e1.ticks (UpdateAnimationFrames dt (HandleControls G e1 a))
          else UpdateAnimationFrames dt (HandleControls G e1 a)) = x at h4 ⊢
  generalize (if (UpdateAnimationFrames dt (HandleControls G e2 b)).trex.state = T_REX_WAITING
          then Blink e2 e2.ticks (UpdateAnimationFrames dt (HandleControls G e2 b))
          else UpdateAnimationFrames dt (HandleControls G e2 b)) = y at h4 ⊢
  exact kinematics_ite (fun g => g.trex.state = T_REX_JUMPING)
    (fun g => g.trex.state = T_REX_JUMPING) (UpdateJump G e1 dt) (UpdateJump G e2 dt)
    (fun u v huv => by dsimp only; rw [((kinematics_eq_iff u v).mp huv).1])
    (UpdateJump_kinematics G e1 e2 hd dt) h4

/-- The kinematics after `UpdateTRex` are determined by the kinematics before,
the two keys and `delta_time`, whatever the clock values, the random values and
the callbacks. -/
theorem UpdateTRex_kinematics (G : Globals) (k1 k2 : Tick) (hk : SameKeys k1 k2)
    (a b : Game) (h : kinematics a = kinematics b) :
    kinematics (UpdateTRex G k1.env k1.delta_time k1.on_started_running a)
      = kinematics (UpdateTRex G k2.env k2.delta_time k2.on_started_running b) := by
  obtain ⟨hj, hd, hdt⟩ := hk
  rw [hdt]
  have key : ∀ (c1 c2 : Option Nat),
      kinematics (UpdateTRex G k1.env k2.delta_time c1 a)
        = kinematics (UpdateTRex G k2.env k2.delta_time c2 b) := by
    intro c1 c2
    cases c1 <;> cases c2 <;> (try rw [UpdateTRex_some]) <;> (try rw [UpdateTRex_some])
      <;> exact UpdateTRex_none_kinematics G k1.env k2.env hj hd k2.delta_time _ _ h
  exact key _ _

/-- The function `HandleControls` reads the environment through the two keys only. -/
theorem HandleControls_env (G : Globals) (e1 e2 : Env)
    (hj : IsJumpKeyPressed e1 = IsJumpKeyPressed e2)
    (hd : IsDuckKeyPressed e1 = IsDuckKeyPressed e2) (g : Game) :
    HandleControls G e1 g = HandleControls G e2 g := by
  unfold HandleControls ResetTRex
  simp only [hj, hd]

/-- The function `UpdateJump` reads the environment through the duck key only. -/
theorem UpdateJump_env (G : Globals) (e1 e2 : Env)
    (hd : IsDuckKeyPressed e1 = IsDuckKeyPressed e2) (dt : Nat) (g : Game) :
    UpdateJump G e1 dt g = UpdateJump G e2 dt g := by
  unfold UpdateJump UpdateJump_checks ResetTRex
  simp only [hd]

/-- The function `Blink` writes `curr_frame`, `blink_delay` and `anim_start_time`
only. -/
theorem Blink_eraseBlink (e : Env) (time : Int) (g : Game) :
    eraseBlink (Blink e time g) = eraseBlink g := by
  unfold Blink
  simp only []
  split_ifs <;> rfl

/-- With the same game, keys, elapsed time and callback, two `UpdateTRex` calls
that differ in the clock values and the random value end in games that differ at
most in `curr_frame`, `blink_delay` and `anim_start_time`. -/
theorem UpdateTRex_eraseBlink (G : Globals) (e1 e2 : Env)
    (hj : IsJumpKeyPressed e1 = IsJumpKeyPressed e2)
    (hd : IsDuckKeyPressed e1 = IsDuckKeyPressed e2) (dt : Nat) (cb : Option Nat) (g : Game) :
    eraseBlink (UpdateTRex G e1 dt cb g) = eraseBlink (UpdateTRex G e2 dt cb g) := by
  have key : ∀ x : Game,
      eraseBlink (UpdateTRex G e1 dt none x) = eraseBlink (UpdateTRex G e2 dt none x) := by
    intro x
    rw [UpdateTRex_none, UpdateTRex_none, HandleControls_env G e1 e2 hj hd x]
    generalize UpdateAnimationFrames dt (HandleControls G e2 x) = g3
    by_cases hw : g3.trex.state = T_REX_WAITING
    · have b1 : (Blink e1 e1.ticks g3).trex.state = T_REX_WAITING := by
        rw [(Blink_still e1 e1.ticks g3).2.2.1, hw]
      have b2 : (Blink e2 e2.ticks g3).trex.state = T_REX_WAITING := by
        rw [(Blink_still e2 e2.ticks g3).2.2.1, hw]
      rw [if_pos hw, if_pos hw, if_neg (by rw [b1]; decide), if_neg (by rw [b2]; decide),
        Blink_eraseBlink, Blink_eraseBlink]
    · rw [if_neg hw, if_neg hw, UpdateJump_env G e1 e2 hd dt g3]
  cases cb with
  | none => exact key g
  | some c =>
    rw [UpdateTRex_some, UpdateTRex_some]
    exact key _

/-- Unfolding of `gameAfter` on a non-empty list. -/
theorem gameAfter_cons_succ (G : Globals) (g : Game) (k : Tick) (ks : List Tick) (n : Nat) :
    gameAfter G g (k :: ks) (n + 1)
      = gameAfter G (UpdateTRex G k.env k.delta_time k.on_started_running g) ks n := by
  simp only [gameAfter, List.take_succ_cons, runTicks_cons]

/-- Two runs from games of equal kinematics, fed the same keys and elapsed times
call by call, have equal kinematics after every call. -/
theorem gameAfter_kinematics (G : Globals) (ks1 ks2 : List Tick)
    (hk : List.Forall₂ SameKeys ks1 ks2) :
    ∀ (a b : Game), kinematics a = kinematics b →
      ∀ n, kinematics (gameAfter G a ks1 n) = kinematics (gameAfter G b ks2 n) := by
  induction hk with
  | nil =>
    intro a b h n
    simp only [gameAfter, List.take_nil, runTicks_nil]
    exact h
  | cons hhead _ ih =>
    intro a b h n
    cases n with
    | zero =>
      rw [gameAfter_zero, gameAfter_zero]
      exact h
    | succ m =>
      rw [gameAfter_cons_succ, gameAfter_cons_succ]
      exact ih _ _ (UpdateTRex_kinematics G _ _ hhead a b h) m

/-- C11: the kinematic outcome of `UpdateTRex` does not depend on the clock or the
random source.  Two calls from games that agree on state, position, velocity,
the jump flags, `did_start_running`, `ground_pos` and `min_jump_height`, with the
same keys and `delta_time`, end in games that agree on all of these, whatever
`GetTicks` and `rand` return (and whatever callbacks are passed); from one and
the same game the clock and random values change at most `curr_frame`,
`blink_delay` and `anim_start_time`; and two runs fed the same keys and elapsed
times call by call have the same kinematics, hence the same position, after
every call. -/
theorem C11_kinematics_independent_of_clock_and_rand (G : Globals) (a b : Game)
    (h : kinematics a = kinematics b) :
    (∀ k1 k2 : Tick, SameKeys k1 k2 →
        kinematics (UpdateTRex G k1.env k1.delta_time k1.on_started_running a)
          = kinematics (UpdateTRex G k2.env k2.delta_time k2.on_started_running b))
    ∧ (∀ (e1 e2 : Env) (dt : Nat) (cb : Option Nat),
        IsJumpKeyPressed e1 = IsJumpKeyPressed e2 →
        IsDuckKeyPressed e1 = IsDuckKeyPressed e2 →
        eraseBlink (UpdateTRex G e1 dt cb a) = eraseBlink (UpdateTRex G e2 dt cb a))
    ∧ (∀ ks1 ks2 : List Tick, List.Forall₂ SameKeys ks1 ks2 →
        ∀ n, kinematics (gameAfter G a ks1 n) = kinematics (gameAfter G b ks2 n)
          ∧ (gameAfter G a ks1 n).trex.pos = (gameAfter G b ks2 n).trex.pos) := by
  refine ⟨fun k1 k2 hk => UpdateTRex_kinematics G k1 k2 hk a b h,
    fun e1 e2 dt cb hj hd => UpdateTRex_eraseBlink G e1 e2 hj hd dt cb a, ?_⟩
  intro ks1 ks2 hk n
  have hn := gameAfter_kinematics G ks1 ks2 hk a b h n
  exact ⟨hn, ((kinematics_eq_iff _ _).mp hn).2.1⟩

/-- C11 at two freshly initialised games that differ in clock and random values. -/
theorem C11_kinematics_independent_of_clock_and_rand_witness :
    kinematics sampleGame = kinematics laterGame
    ∧ (∀ k1 k2 : Tick, SameKeys k1 k2 →
        kinematics (UpdateTRex sampleGlobals k1.env k1.delta_time k1.on_started_running
            sampleGame)
          = kinematics (UpdateTRex sampleGlobals k2.env k2.delta_time k2.on_started_running
              laterGame))
    ∧ (∀ (e1 e2 : Env) (dt : Nat) (cb : Option Nat),
        IsJumpKeyPressed e1 = IsJumpKeyPressed e2 →
        IsDuckKeyPressed e1 = IsDuckKeyPressed e2 →
        eraseBlink (UpdateTRex sampleGlobals e1 dt cb sampleGame)
          = eraseBlink (UpdateTRex sampleGlobals e2 dt cb sampleGame))
    ∧ (∀ ks1 ks2 : List Tick, List.Forall₂ SameKeys ks1 ks2 →
        ∀ n, kinematics (gameAfter sampleGlobals sampleGame ks1 n)
            = kinematics (gameAfter sampleGlobals laterGame ks2 n)
          ∧ (gameAfter sampleGlobals sampleGame ks1 n).trex.pos
            = (gameAfter sampleGlobals laterGame ks2 n).trex.pos) :=
  ⟨rfl, C11_kinematics_independent_of_clock_and_rand sampleGlobals sampleGame laterGame rfl⟩

/-! ## The nearest obstacle -/

/-- The first element left by `dropWhile` does not satisfy the test. -/
theorem dropWhile_head_false {α : Type} (p : α → Bool) (l : List α) (o : α) (rest : List α)
    (h : l.dropWhile p = o :: rest) : p o = false := by
  induction l with
  | nil => simp at h
  | cons a t ih =>
    rw [List.dropWhile_cons] at h
    split_ifs at h with ha
    · exact ih h
    · have hao : a = o := (List.cons.inj h).1
      rw [← hao]
      simpa using ha

/-- Every element taken by `takeWhile` satisfies the test. -/
theorem takeWhile_all_true {α : Type} (p : α → Bool) (l : List α) :
    ∀ o ∈ l.takeWhile p, p o = true := by
  induction l with
  | nil => intro o ho; simp at ho
  | cons a t ih =>
    intro o ho
    rw [List.takeWhile_cons] at ho
    split_ifs at ho with ha
    · rcases List.mem_cons.mp ho with h1 | h1
      · rw [h1]; exact ha
      · exact ih o h1
    · simp at ho

/-- C12: on a horizon without live obstacles `GetNearestObstacleFrame` returns the
zero-area rectangle and `GetNearestObstacleCollisionSet` a set with `len = 0`
(so after `InitHorizon` and after `ResetHorizon`); and after `UpdateHorizon` the
obstacles removed from the front are exactly invisible ones, while the obstacle
whose frame and collision set the two queries return is the first one kept,
which is visible, so it is none of the removed ones. -/
theorem C12_nearest_obstacle_queries :
    (∀ h : Horizon, h.obstacles = [] →
        GetNearestObstacleFrame h = zeroRect
        ∧ (GetNearestObstacleFrame h).width * (GetNearestObstacleFrame h).height = 0
        ∧ (GetNearestObstacleCollisionSet h).len = 0)
    ∧ (GetNearestObstacleFrame InitHorizon = zeroRect
        ∧ (GetNearestObstacleCollisionSet InitHorizon).len = 0)
    ∧ (∀ h : Horizon, GetNearestObstacleFrame (ResetHorizon h) = zeroRect
        ∧ (GetNearestObstacleCollisionSet (ResetHorizon h)).len = 0)
    ∧ (∀ (h : Horizon) (dt : Nat) (speed : ℚ) (has_obstacles : Bool)
        (spawned : Option Obstacle),
        ∃ removed : List Obstacle,
          advancedObstacles h dt speed has_obstacles spawned
            = removed ++ (UpdateHorizon h dt speed has_obstacles spawned).obstacles
          ∧ (∀ o ∈ removed, IsObstacleVisible o = false)
          ∧ (∀ (o : Obstacle) (rest : List Obstacle),
              (UpdateHorizon h dt speed has_obstacles spawned).obstacles = o :: rest →
                IsObstacleVisible o = true
                ∧ o ∉ removed
                ∧ GetNearestObstacleFrame (UpdateHorizon h dt speed has_obstacles spawned)
                    = obstacleFrame o
                ∧ GetNearestObstacleCollisionSet
                      (UpdateHorizon h dt speed has_obstacles spawned)
                    = obstacleCollisionSet o)) := by
  refine ⟨?_, ⟨rfl, rfl⟩, fun _ => ⟨rfl, rfl⟩, ?_⟩
  · intro h hempty
    have hf : GetNearestObstacleFrame h = zeroRect := by
      unfold GetNearestObstacleFrame
      rw [hempty]
    have hc : GetNearestObstacleCollisionSet h = emptyCollisionSet := by
      unfold GetNearestObstacleCollisionSet
      rw [hempty]
    refine ⟨hf, ?_, ?_⟩
    · rw [hf]; rfl
    · rw [hc]; rfl
  · intro h dt speed has_obstacles spawned
    refine ⟨(advancedObstacles h dt speed has_obstacles spawned).takeWhile
        (fun o => !IsObstacleVisible o), ?_, ?_, ?_⟩
    · unfold UpdateHorizon
      exact (List.takeWhile_append_dropWhile _ _).symm
    · intro o ho
      have := takeWhile_all_true (fun o => !IsObstacleVisible o) _ o ho
      simpa using this
    · intro o rest hkept
      have hvis : IsObstacleVisible o = true := by
        have := dropWhile_head_false (fun o => !IsObstacleVisible o)
          (advancedObstacles h dt speed has_obstacles spawned) o rest hkept
        simpa using this
      refine ⟨hvis, ?_, ?_, ?_⟩
      · intro hmem
        have hinv : (!IsObstacleVisible o) = true :=
          takeWhile_all_true (fun o => !IsObstacleVisible o) _ o hmem
        rw [hvis] at hinv
        exact absurd hinv (by decide)
      · unfold GetNearestObstacleFrame
        rw [hkept]
      · unfold GetNearestObstacleCollisionSet
        rw [hkept]

/-! ## The character stays on or above the ground -/

/-- A guarded step keeps a property that the step keeps under the guard. -/
theorem ite_preserves (P : Game → Prop) (cnd : Prop) [Decidable cnd] (f : Game → Game)
    {x : Game} (hf : cnd → P x → P (f x)) (hx : P x) : P (if cnd then f x else x) := by
  split_ifs with hc
  · exact hf hc hx
  · exact hx

/-- The invariant `Settled` only reads the kinematics. -/
theorem Settled_of_kinematics {a b : Game} (h : kinematics b = kinematics a)
    (ha : Settled a) : Settled b := by
  rw [kinematics_eq_iff] at h
  obtain ⟨h1, h2, h3, h4, h5, _, h7, _⟩ := h
  unfold Settled OnFoot GroundedPose at ha ⊢
  rw [h1, h2, h3, h4, h5, h7]
  exact ha

/-- The function `StartJump` keeps the invariant: the character is then jumping. -/
theorem StartJump_settled (G : Globals) (x : Game) (hx : Settled x) :
    Settled (StartJump G x) := by
  obtain ⟨s1, _, _, _, s5, _, _⟩ := StartJump_fields G x
  have hg : (StartJump G x).trex.ground_pos = x.trex.ground_pos := by
    simp [StartJump, SetTRexState]
  refine ⟨by rw [s5]; exact hx.1, by rw [s5, hg]; exact hx.2.1, ?_⟩
  intro hf
  unfold OnFoot at hf
  rw [s1] at hf
  rcases hf with h | h | h <;> exact absurd h (by decide)

/-- A step that keeps position, ground line and a jumping state keeps the
invariant. -/
theorem Settled_of_jumping {x y : Game} (hx : Settled x)
    (hp : y.trex.pos = x.trex.pos) (hg : y.trex.ground_pos = x.trex.ground_pos)
    (hs : y.trex.state = T_REX_JUMPING) : Settled y := by
  refine ⟨by rw [hp]; exact hx.1, by rw [hp, hg]; exact hx.2.1, ?_⟩
  intro hf
  unfold OnFoot at hf
  rw [hs] at hf
  rcases hf with h | h | h <;> exact absurd h (by decide)

/-- The function `ResetTRex` establishes the invariant. -/
theorem ResetTRex_settled (e : Env) (x : Game) (hx : x.trex.pos.x = 50) :
    Settled (ResetTRex e x) := by
  obtain ⟨r1, r2, r3, r4, r5, _, r7⟩ := ResetTRex_fields e x
  refine ⟨r2.trans hx, by rw [r1, r7], fun _ => ⟨by rw [r1, r7], r3, r4, r5⟩⟩

/-- Entering the ducking state keeps the invariant. -/
theorem SetTRexState_ducking_settled (x : Game) (hx : Settled x)
    (hs : x.trex.state = T_REX_RUNNING) : Settled (SetTRexState T_REX_DUCKING x) := by
  obtain ⟨_, _, _, d4, d5, d6, d7⟩ := SetTRexState_ducking_fields x
  have hg : (SetTRexState T_REX_DUCKING x).trex.ground_pos = x.trex.ground_pos := by
    simp [SetTRexState]
  have hgr : GroundedPose x := hx.2.2 (Or.inr (Or.inl hs))
  unfold GroundedPose at hgr
  refine ⟨by rw [d4]; exact hx.1, by rw [d4, hg]; exact hx.2.1, fun _ => ?_⟩
  unfold GroundedPose
  rw [d4, d5, d6, d7, hg]
  exact hgr

/-- The function `HandleControls` keeps the invariant. -/
theorem HandleControls_settled (G : Globals) (e : Env) (g : Game) (h : Settled g) :
    Settled (HandleControls G e g) := by
  unfold HandleControls
  simp only []
  refine ite_preserves Settled _ (ResetTRex e) (fun _ hx => ResetTRex_settled e _ hx.1) ?_
  refine ite_preserves Settled _ (SetTRexState T_REX_DUCKING)
    (fun hc hx => SetTRexState_ducking_settled _ hx hc.1) ?_
  refine ite_preserves Settled _ SetSpeedDrop
    (fun hc hx => Settled_of_jumping hx rfl rfl hc.1) ?_
  refine ite_preserves Settled _ (EndJump G)
    (fun hc hx => Settled_of_jumping hx (EndJump_fields G _).2.1 (EndJump_fields G _).2.2.1
      ((EndJump_fields G _).1.trans hc.1)) ?_
  exact ite_preserves Settled _ (StartJump G) (fun _ hx => StartJump_settled G _ hx) h

/-- The physics step keeps `pos.x`. -/
theorem UpdateJump_physics_pos_x (G : Globals) (dt : Nat) (g : Game) :
    (UpdateJump_physics G dt g).trex.pos.x = g.trex.pos.x := by
  unfold UpdateJump_physics
  simp only []
  split_ifs <;> rfl

/-- From a jumping character at `pos.x = 50` the checks of `UpdateJump` establish
the invariant: either the character is landed, or it is still jumping and not
under the ground line. -/
theorem UpdateJump_checks_settled (G : Globals) (e : Env) (g : Game)
    (hx : g.trex.pos.x = 50) (hs : g.trex.state = T_REX_JUMPING) :
    Settled (UpdateJump_checks G e g) := by
  have mid : ∀ y : Game, (y.trex.pos.x = 50 ∧ y.trex.state = T_REX_JUMPING) →
      Settled (if y.trex.pos.y > y.trex.ground_pos then ResetTRex e y else y) := by
    intro y hy
    split_ifs with hl
    · exact ResetTRex_settled e y hy.1
    · refine ⟨hy.1, not_lt.mp hl, ?_⟩
      intro hf
      unfold OnFoot at hf
      rw [hy.2] at hf
      rcases hf with h | h | h <;> exact absurd h (by decide)
  unfold UpdateJump_checks
  simp only []
  apply mid
  refine ite_preserves (fun y => y.trex.pos.x = 50 ∧ y.trex.state = T_REX_JUMPING) _ (EndJump G)
    (fun _ hy => ⟨by rw [(EndJump_fields G _).2.1]; exact hy.1,
      (EndJump_fields G _).1.trans hy.2⟩) ?_
  exact ite_preserves (fun y => y.trex.pos.x = 50 ∧ y.trex.state = T_REX_JUMPING) _
    (fun y => { y with trex := { y.trex with reached_min_height := true } })
    (fun _ hy => hy) ⟨hx, hs⟩

/-- The function `UpdateTRex` without a new callback keeps the invariant. -/
theorem UpdateTRex_none_settled (G : Globals) (e : Env) (dt : Nat) (g : Game)
    (h : Settled g) : Settled (UpdateTRex G e dt none g) := by
  rw [UpdateTRex_none]
  have h2 := HandleControls_settled G e g h
  have h3 : Settled (UpdateAnimationFrames dt (HandleControls G e g)) :=
    Settled_of_kinematics (UpdateAnimationFrames_kinematics dt _) h2
  have h4 : Settled
      (if (UpdateAnimationFrames dt (HandleControls G e g)).trex.state = T_REX_WAITING
        then Blink e e.ticks (UpdateAnimationFrames dt (HandleControls G e g))
        else UpdateAnimationFrames dt (HandleControls G e g)) := by
    split_ifs
    · exact Settled_of_kinematics (Blink_kinematics e e.ticks _) h3
    · exact h3
  generalize (if (UpdateAnimationFrames dt (HandleControls G e g)).trex.state = T_REX_WAITING
        then Blink e e.ticks (UpdateAnimationFrames dt (HandleControls G e g))
        else UpdateAnimationFrames dt (HandleControls G e g)) = g4 at h4 ⊢
  split_ifs with hj
  · unfold UpdateJump
    apply UpdateJump_checks_settled
    · rw [UpdateJump_physics_pos_x]; exact h4.1
    · rw [(UpdateJump_physics_still G dt g4).2.2.1]; exact hj
  · exact h4

/-- The function `UpdateTRex` keeps the invariant. -/
theorem UpdateTRex_settled (G : Globals) (e : Env) (dt : Nat) (cb : Option Nat) (g : Game)
    (h : Settled g) : Settled (UpdateTRex G e dt cb g) := by
  cases cb with
  | none => exact UpdateTRex_none_settled G e dt g h
  | some c =>
    rw [UpdateTRex_some]
    exact UpdateTRex_none_settled G e dt { g with OnStartedRunning := some c } h

/-- The function `InitTRex` establishes the invariant. -/
theorem InitTRex_settled (G : Globals) (e : Env) (g : Game) : Settled (InitTRex G e g) :=
  ⟨rfl, le_refl _, fun _ => ⟨rfl, rfl, rfl, rfl⟩⟩

/-- Any run of `UpdateTRex` calls keeps the invariant. -/
theorem runTicks_settled (G : Globals) (ks : List Tick) :
    ∀ g : Game, Settled g → Settled (runTicks G g ks) := by
  induction ks with
  | nil => intro g h; rw [runTicks_nil]; exact h
  | cons k rest ih =>
    intro g h
    rw [runTicks_cons]
    exact ih _ (UpdateTRex_settled G k.env k.delta_time k.on_started_running g h)

/-- C13: in every state reached from `InitTRex` by any sequence of `UpdateTRex`
calls (any keys, delta times, clock values, random values and callbacks),
`pos.x = 50` and `pos.y <= ground_pos`, and whenever the state is waiting,
running or ducking the character is grounded with cleared jump data:
`pos.y = ground_pos`, `jump_velocity = 0`, `speed_drop = false` and
`reached_min_height = false`. -/
theorem C13_reachable_states_are_settled (G : Globals) (e0 : Env) (g : Game)
    (ks : List Tick) :
    (runTicks G (InitTRex G e0 g) ks).trex.pos.x = 50
    ∧ (runTicks G (InitTRex G e0 g) ks).trex.pos.y
        ≤ (runTicks G (InitTRex G e0 g) ks).trex.ground_pos
    ∧ (((runTicks G (InitTRex G e0 g) ks).trex.state = T_REX_WAITING
          ∨ (runTicks G (InitTRex G e0 g) ks).trex.state = T_REX_RUNNING
          ∨ (runTicks G (InitTRex G e0 g) ks).trex.state = T_REX_DUCKING) →
        (runTicks G (InitTRex G e0 g) ks).trex.pos.y
            = (runTicks G (InitTRex G e0 g) ks).trex.ground_pos
        ∧ (runTicks G (InitTRex G e0 g) ks).trex.jump_velocity = 0
        ∧ (runTicks G (InitTRex G e0 g) ks).trex.speed_drop = false
        ∧ (runTicks G (InitTRex G e0 g) ks).trex.reached_min_height = false) :=
  runTicks_settled G ks (InitTRex G e0 g) (InitTRex_settled G e0 g)

/-! ## Jump and duck pressed together -/

/-- C14, amended: from a state that is neither jumping nor ducking, with the jump
key pressed and the duck key held, `HandleControls` leaves the state jumping (not
ducking) with `speed_drop = true`; `jump_velocity` is 1 when `speed_drop` was
clear before the call (the fast-drop pin overrides `INITIAL_JUMP_VELOCITY`), and
`INITIAL_JUMP_VELOCITY` when `speed_drop` was already set. -/
theorem C14_jump_wins_over_duck (G : Globals) (e : Env) (g : Game)
    (hj : g.trex.state ≠ T_REX_JUMPING) (hd : g.trex.state ≠ T_REX_DUCKING)
    (kj : IsJumpKeyPressed e = true) (kd : IsDuckKeyPressed e = true) :
    (HandleControls G e g).trex.state = T_REX_JUMPING
    ∧ (HandleControls G e g).trex.speed_drop = true
    ∧ (g.trex.speed_drop = false → (HandleControls G e g).trex.jump_velocity = 1)
    ∧ (g.trex.speed_drop = true →
        (HandleControls G e g).trex.jump_velocity = G.INITIAL_JUMP_VELOCITY) := by
  obtain ⟨s1, s2, _, _, _, s6, _⟩ := StartJump_fields G g
  cases hsd : g.trex.speed_drop with
  | false =>
    have h : HandleControls G e g = SetSpeedDrop (StartJump G g) := by
      simp [HandleControls, hj, hd, kj, kd, s1, s6, hsd, SetSpeedDrop]
    rw [h]
    refine ⟨s1, rfl, fun _ => rfl, fun h2 => absurd h2 (by decide)⟩
  | true =>
    have h : HandleControls G e g = StartJump G g := by
      simp [HandleControls, hj, hd, kj, kd, s1, s6, hsd]
    rw [h]
    exact ⟨s1, by rw [s6, hsd], fun h2 => absurd h2 (by decide), fun _ => s2⟩

/-- C14 at the freshly initialised sample game with both keys down. -/
theorem C14_jump_wins_over_duck_witness :
    sampleGame.trex.state ≠ T_REX_JUMPING ∧ sampleGame.trex.state ≠ T_REX_DUCKING
    ∧ IsJumpKeyPressed jumpDuckEnv = true ∧ IsDuckKeyPressed jumpDuckEnv = true
    ∧ (HandleControls sampleGlobals jumpDuckEnv sampleGame).trex.state = T_REX_JUMPING
    ∧ (HandleControls sampleGlobals jumpDuckEnv sampleGame).trex.speed_drop = true
    ∧ (sampleGame.trex.speed_drop = false →
        (HandleControls sampleGlobals jumpDuckEnv sampleGame).trex.jump_velocity = 1)
    ∧ (sampleGame.trex.speed_drop = true →
        (HandleControls sampleGlobals jumpDuckEnv sampleGame).trex.jump_velocity
          = sampleGlobals.INITIAL_JUMP_VELOCITY) :=
  ⟨by decide, by decide, rfl, rfl,
    C14_jump_wins_over_duck sampleGlobals jumpDuckEnv sampleGame (by decide) (by decide)
      rfl rfl⟩

/-- C14 as stated fails when `speed_drop` is already set: for a character that
crashed while fast-dropping, pressing jump with duck held starts the jump with
`jump_velocity = INITIAL_JUMP_VELOCITY = -10`, not 1, because `SetSpeedDrop` is
only called while `speed_drop` is clear. -/
theorem C14_counterexample_stale_speed_drop :
    crashedInDropGame.trex.state = T_REX_CRASHED
    ∧ crashedInDropGame.trex.speed_drop = true
    ∧ IsJumpKeyPressed jumpDuckEnv = true ∧ IsDuckKeyPressed jumpDuckEnv = true
    ∧ (HandleControls sampleGlobals jumpDuckEnv crashedInDropGame).trex.state = T_REX_JUMPING
    ∧ (HandleControls sampleGlobals jumpDuckEnv crashedInDropGame).trex.jump_velocity = -10
    ∧ ¬ ((HandleControls sampleGlobals jumpDuckEnv crashedInDropGame).trex.state
            = T_REX_JUMPING
          ∧ (HandleControls sampleGlobals jumpDuckEnv crashedInDropGame).trex.speed_drop = true
          ∧ (HandleControls sampleGlobals jumpDuckEnv crashedInDropGame).trex.jump_velocity
            = 1) := by
  with_unfolding_all decide

/-! ## The maximum jump height -/

/-- The physics step keeps the minimum jump height. -/
theorem UpdateJump_physics_min_jump_height (G : Globals) (dt : Nat) (g : Game) :
    (UpdateJump_physics G dt g).trex.min_jump_height = g.trex.min_jump_height := by
  unfold UpdateJump_physics
  simp only []
  split_ifs <;> rfl

/-- When the position handed to the checks of `UpdateJump` is above the maximum
jump height, which is not under the minimum jump height, which is not under the
ground line: the flag is set, the velocity is clamped and the character is not
landed. -/
theorem UpdateJump_checks_above_max (G : Globals) (e : Env) (p : Game)
    (hy : p.trex.pos.y < G.MAX_JUMP_HEIGHT)
    (hm : G.MAX_JUMP_HEIGHT ≤ p.trex.min_jump_height)
    (hg : p.trex.min_jump_height ≤ p.trex.ground_pos) :
    (UpdateJump_checks G e p).trex.state = p.trex.state
    ∧ (UpdateJump_checks G e p).trex.reached_min_height = true
    ∧ G.DROP_VELOCITY ≤ (UpdateJump_checks G e p).trex.jump_velocity := by
  have c1 : p.trex.pos.y < p.trex.min_jump_height := lt_of_lt_of_le hy hm
  have c3 : ¬ p.trex.pos.y > p.trex.ground_pos := not_lt.mpr (le_of_lt (lt_of_lt_of_le c1 hg))
  by_cases hv : p.trex.jump_velocity < G.DROP_VELOCITY
  · simp [UpdateJump_checks, EndJump, c1, hy, hv, c3]
  · simp [UpdateJump_checks, EndJump, c1, hy, hv, c3]
    exact not_lt.mp hv

/-- C15: assuming `MAX_JUMP_HEIGHT <= min_jump_height <= ground_pos`, for a
jumping character and any `delta_time`, when the position computed by the
physics step of `UpdateJump` is above the maximum jump height
(`pos.y < MAX_JUMP_HEIGHT`), `UpdateJump` returns with the state still jumping,
`reached_min_height = true` and `jump_velocity >= DROP_VELOCITY`, whatever the
keys and whatever `reached_min_height` was before. -/
theorem C15_max_height_ends_jump (G : Globals) (e : Env) (dt : Nat) (g : Game)
    (hm : G.MAX_JUMP_HEIGHT ≤ g.trex.min_jump_height)
    (hg : g.trex.min_jump_height ≤ g.trex.ground_pos)
    (hs : g.trex.state = T_REX_JUMPING)
    (hy : (UpdateJump_physics G dt g).trex.pos.y < G.MAX_JUMP_HEIGHT) :
    (UpdateJump G e dt g).trex.state = T_REX_JUMPING
    ∧ (UpdateJump G e dt g).trex.reached_min_height = true
    ∧ G.DROP_VELOCITY ≤ (UpdateJump G e dt g).trex.jump_velocity := by
  have hmin := UpdateJump_physics_min_jump_height G dt g
  have hgr := UpdateJump_physics_ground_pos G dt g
  have hst := (UpdateJump_physics_still G dt g).2.2.1
  obtain ⟨r1, r2, r3⟩ := UpdateJump_checks_above_max G e (UpdateJump_physics G dt g) hy
    (by rw [hmin]; exact hm) (by rw [hmin, hgr]; exact hg)
  unfold UpdateJump
  exact ⟨r1.trans (hst.trans hs), r2, r3⟩

/-- C15 at a character 60 pixels up (at `pos.y = 33`) rising at 8 pixels per
frame, over one frame of 16 ms: the physics step puts it at `pos.y = 25`, above
the maximum jump height 30. -/
theorem C15_max_height_ends_jump_witness :
    sampleGlobals.MAX_JUMP_HEIGHT ≤ (airborneGame 60 (-8) false).trex.min_jump_height
    ∧ (airborneGame 60 (-8) false).trex.min_jump_height
        ≤ (airborneGame 60 (-8) false).trex.ground_pos
    ∧ (airborneGame 60 (-8) false).trex.state = T_REX_JUMPING
    ∧ (UpdateJump_physics sampleGlobals 16 (airborneGame 60 (-8) false)).trex.pos.y
        < sampleGlobals.MAX_JUMP_HEIGHT
    ∧ (UpdateJump sampleGlobals idleEnv 16 (airborneGame 60 (-8) false)).trex.state
        = T_REX_JUMPING
    ∧ (UpdateJump sampleGlobals idleEnv 16 (airborneGame 60 (-8) false)).trex.reached_min_height
        = true
    ∧ sampleGlobals.DROP_VELOCITY
        ≤ (UpdateJump sampleGlobals idleEnv 16 (airborneGame 60 (-8) false)).trex.jump_velocity :=
  ⟨by decide, by decide, rfl, by with_unfolding_all decide,
    C15_max_height_ends_jump sampleGlobals idleEnv 16 (airborneGame 60 (-8) false)
      (by decide) (by decide) rfl (by with_unfolding_all decide)⟩

/-! ## The animation frame stays in range -/

/-- Every entry of `trex_animation_frames` lists between one and ten frames and
holds ten array entries. -/
theorem animationFramesOf_len (s : TRexState) :
    1 ≤ (animationFramesOf s).len ∧ (animationFramesOf s).len ≤ 10
    ∧ (animationFramesOf s).frames.length = 10 := by
  cases s <;> decide

/-- A step that keeps state, animation and current frame keeps `FrameOk`. -/
theorem FrameOk_of_same {x y : Game} (hx : FrameOk x)
    (hs : y.trex.state = x.trex.state) (ha : y.trex.anim_frame = x.trex.anim_frame)
    (hc : y.trex.curr_frame = x.trex.curr_frame) : FrameOk y := by
  unfold FrameOk at hx ⊢
  rw [hs, ha, hc]
  exact hx

/-- What `SetTRexState` leaves in state, animation and current frame. -/
theorem SetTRexState_frame_fields (s : TRexState) (g : Game) :
    (SetTRexState s g).trex.state = s
    ∧ (SetTRexState s g).trex.anim_frame = animationFramesOf s
    ∧ (SetTRexState s g).trex.curr_frame = 0 := by
  unfold SetTRexState
  simp only []
  split_ifs
  · split <;> exact ⟨rfl, rfl, rfl⟩
  · exact ⟨rfl, rfl, rfl⟩

/-- The function `SetTRexState` establishes `FrameOk`. -/
theorem SetTRexState_frameOk (s : TRexState) (g : Game) : FrameOk (SetTRexState s g) := by
  obtain ⟨f1, f2, f3⟩ := SetTRexState_frame_fields s g
  obtain ⟨l1, l2, _⟩ := animationFramesOf_len s
  unfold FrameOk
  rw [f1, f2, f3]
  exact ⟨rfl, le_refl _, by omega, l2⟩

/-- The function `StartJump` establishes `FrameOk`. -/
theorem StartJump_frameOk (G : Globals) (g : Game) : FrameOk (StartJump G g) :=
  FrameOk_of_same (SetTRexState_frameOk T_REX_JUMPING g) rfl rfl rfl

/-- The function `ResetTRex` establishes `FrameOk`. -/
theorem ResetTRex_frameOk (e : Env) (g : Game) : FrameOk (ResetTRex e g) := by
  unfold ResetTRex
  simp only []
  split_ifs <;> exact SetTRexState_frameOk _ _

/-- The function `EndJump` keeps state, animation and current frame. -/
theorem EndJump_frame_fields (G : Globals) (g : Game) :
    (EndJump G g).trex.state = g.trex.state
    ∧ (EndJump G g).trex.anim_frame = g.trex.anim_frame
    ∧ (EndJump G g).trex.curr_frame = g.trex.curr_frame := by
  unfold EndJump
  split_ifs <;> exact ⟨rfl, rfl, rfl⟩

/-- The function `HandleControls` keeps `FrameOk`. -/
theorem HandleControls_frameOk (G : Globals) (e : Env) (g : Game) (h : FrameOk g) :
    FrameOk (HandleControls G e g) := by
  unfold HandleControls
  simp only []
  refine ite_preserves FrameOk _ (ResetTRex e) (fun _ _ => ResetTRex_frameOk e _) ?_
  refine ite_preserves FrameOk _ (SetTRexState T_REX_DUCKING)
    (fun _ _ => SetTRexState_frameOk _ _) ?_
  refine ite_preserves FrameOk _ SetSpeedDrop (fun _ hx => FrameOk_of_same hx rfl rfl rfl) ?_
  refine ite_preserves FrameOk _ (EndJump G)
    (fun _ hx => FrameOk_of_same hx (EndJump_frame_fields G _).1 (EndJump_frame_fields G _).2.1
      (EndJump_frame_fields G _).2.2) ?_
  exact ite_preserves FrameOk _ (StartJump G) (fun _ _ => StartJump_frameOk G _) h

/-- The function `UpdateAnimationFrames` keeps `FrameOk`: the frame index wraps
at `len - 1`. -/
theorem UpdateAnimationFrames_frameOk (dt : Nat) (g : Game) (h : FrameOk g) :
    FrameOk (UpdateAnimationFrames dt g) := by
  obtain ⟨h1, h2, h3, h4⟩ := h
  unfold UpdateAnimationFrames
  simp only []
  split_ifs with c1 c2
  · exact ⟨h1, le_refl _, by
      show (0 : Int) < g.trex.anim_frame.len
      omega, h4⟩
  · refine ⟨h1, ?_, ?_, h4⟩
    · show (0 : Int) ≤ g.trex.curr_frame + 1
      omega
    · show g.trex.curr_frame + 1 < g.trex.anim_frame.len
      have c2' : ¬ g.trex.curr_frame = g.trex.anim_frame.len - 1 := c2
      omega
  · exact ⟨h1, h2, h3, h4⟩

/-- The function `Blink` on a waiting character keeps `FrameOk`: it leaves frame 0
or 1 of the two waiting frames. -/
theorem Blink_frameOk (e : Env) (time : Int) (g : Game) (hs : g.trex.state = T_REX_WAITING)
    (h : FrameOk g) : FrameOk (Blink e time g) := by
  obtain ⟨h1, _, _, h4⟩ := h
  have hlen : g.trex.anim_frame.len = 2 := by rw [h1, hs]; rfl
  have hst : (Blink e time g).trex.state = g.trex.state := (Blink_still e time g).2.2.1
  have han : (Blink e time g).trex.anim_frame = g.trex.anim_frame := by
    unfold Blink
    simp only []
    split_ifs <;> rfl
  have hcf := (Blink_frame e time g).2.2.2
  unfold FrameOk
  rw [hst, han, hlen]
  refine ⟨h1, ?_, ?_, by decide⟩
  · rcases hcf with h0 | h0 <;> omega
  · rcases hcf with h0 | h0 <;> omega

/-- The physics step keeps state, animation and current frame. -/
theorem UpdateJump_physics_frame_fields (G : Globals) (dt : Nat) (g : Game) :
    (UpdateJump_physics G dt g).trex.state = g.trex.state
    ∧ (UpdateJump_physics G dt g).trex.anim_frame = g.trex.anim_frame
    ∧ (UpdateJump_physics G dt g).trex.curr_frame = g.trex.curr_frame := by
  unfold UpdateJump_physics
  simp only []
  split_ifs <;> exact ⟨rfl, rfl, rfl⟩

/-- The function `UpdateJump` keeps `FrameOk`. -/
theorem UpdateJump_frameOk (G : Globals) (e : Env) (dt : Nat) (g : Game) (h : FrameOk g) :
    FrameOk (UpdateJump G e dt g) := by
  obtain ⟨p1, p2, p3⟩ := UpdateJump_physics_frame_fields G dt g
  have hp : FrameOk (UpdateJump_physics G dt g) := FrameOk_of_same h p1 p2 p3
  unfold UpdateJump UpdateJump_checks
  simp only []
  refine ite_preserves FrameOk _ (ResetTRex e) (fun _ _ => ResetTRex_frameOk e _) ?_
  refine ite_preserves FrameOk _ (EndJump G)
    (fun _ hx => FrameOk_of_same hx (EndJump_frame_fields G _).1 (EndJump_frame_fields G _).2.1
      (EndJump_frame_fields G _).2.2) ?_
  exact ite_preserves FrameOk _
    (fun y => { y with trex := { y.trex with reached_min_height := true } })
    (fun _ hx => FrameOk_of_same hx rfl rfl rfl) hp

/-- The function `UpdateTRex` without a new callback keeps `FrameOk`. -/
theorem UpdateTRex_none_frameOk (G : Globals) (e : Env) (dt : Nat) (g : Game)
    (h : FrameOk g) : FrameOk (UpdateTRex G e dt none g) := by
  rw [UpdateTRex_none]
  have h3 : FrameOk (UpdateAnimationFrames dt (HandleControls G e g)) :=
    UpdateAnimationFrames_frameOk dt _ (HandleControls_frameOk G e g h)
  have h4 : FrameOk
      (if (UpdateAnimationFrames dt (HandleControls G e g)).trex.state = T_REX_WAITING
        then Blink e e.ticks (UpdateAnimationFrames dt (HandleControls G e g))
        else UpdateAnimationFrames dt (HandleControls G e g)) := by
    split_ifs with hw
    · exact Blink_frameOk e e.ticks _ hw h3
    · exact h3
  generalize (if (UpdateAnimationFrames dt (HandleControls G e g)).trex.state = T_REX_WAITING
        then Blink e e.ticks (UpdateAnimationFrames dt (HandleControls G e g))
        else UpdateAnimationFrames dt (HandleControls G e g)) = g4 at h4 ⊢
  split_ifs
  · exact UpdateJump_frameOk G e dt g4 h4
  · exact h4

/-- The function `UpdateTRex` keeps `FrameOk`. -/
theorem UpdateTRex_frameOk (G : Globals) (e : Env) (dt : Nat) (cb : Option Nat) (g : Game)
    (h : FrameOk g) : FrameOk (UpdateTRex G e dt cb g) := by
  cases cb with
  | none => exact UpdateTRex_none_frameOk G e dt g h
  | some c =>
    rw [UpdateTRex_some]
    exact UpdateTRex_none_frameOk G e dt { g with OnStartedRunning := some c } h

/-- Every reachable game satisfies `FrameOk`. -/
theorem Reachable_frameOk (G : Globals) (g : Game) (h : Reachable G g) : FrameOk g := by
  induction h with
  | init e g0 =>
    have hlen : (animationFramesOf T_REX_WAITING).len = 2 := rfl
    refine ⟨rfl, ?_, ?_, ?_⟩
    · show (0 : Int) ≤ 1
      decide
    · show (1 : Int) < (animationFramesOf T_REX_WAITING).len
      rw [hlen]; decide
    · show (animationFramesOf T_REX_WAITING).len ≤ 10
      rw [hlen]; decide
  | update e dt cb _ ih => exact UpdateTRex_frameOk G e dt cb _ ih
  | set_state s _ _ => exact SetTRexState_frameOk s _

/-- Under `FrameOk` the texture of `DrawTRex` is defined and its source column is
the sprite column plus the listed frame offset. -/
theorem DrawTRex_defined (g : Game) (h : FrameOk g) :
    ∃ (frame : Int) (tex : Texture),
      g.trex.anim_frame.frames[g.trex.curr_frame.toNat]? = some frame
      ∧ DrawTRex g = some tex
      ∧ tex.source.x = g.trex.sprite_def.x + frame := by
  obtain ⟨h1, h2, h3, h4⟩ := h
  have hlen : g.trex.anim_frame.frames.length = 10 := by
    rw [h1]; exact (animationFramesOf_len _).2.2
  have hidx : g.trex.curr_frame.toNat < g.trex.anim_frame.frames.length := by
    rw [hlen]; omega
  have hdraw : DrawTRex g = some
      { id := 0
        source :=
          { x := g.trex.sprite_def.x + g.trex.anim_frame.frames[g.trex.curr_frame.toNat],
            y := g.trex.sprite_def.y,
            width := if g.trex.state ≠ T_REX_DUCKING then g.trex.width
              else g.trex.ducking_width,
            height := g.trex.height }
        destination :=
          { x := g.trex.pos.x, y := g.trex.pos.y,
            width := if g.trex.state ≠ T_REX_DUCKING then g.trex.width
              else g.trex.ducking_width,
            height := g.trex.height } } := by
    unfold DrawTRex
    simp only [h2, if_true, List.getElem?_eq_getElem hidx]
  exact ⟨g.trex.anim_frame.frames[g.trex.curr_frame.toNat], _,
    List.getElem?_eq_getElem hidx, hdraw, rfl⟩

/-- The entry `animationFramesOf s` is the entry of `trex_animation_frames` at the
integer value of `s`. -/
theorem animationFramesOf_table (s : TRexState) :
    trex_animation_frames[s.toNat]? = some (animationFramesOf s) := by
  cases s <;> rfl

/-- C16: in every game reached from `InitTRex` by `UpdateTRex` calls and
`SetTRexState` calls with any of the five states, `anim_frame` is the
`trex_animation_frames` entry of the current state and
`0 <= curr_frame < anim_frame.len <= 10`, so the read `frames[curr_frame]` of
`DrawTRex` is defined: it is one of the listed frames of the current pose, and
the texture's source column is the sprite column plus that frame offset. -/
theorem C16_animation_frame_in_range (G : Globals) (g : Game) (h : Reachable G g) :
    trex_animation_frames[g.trex.state.toNat]? = some g.trex.anim_frame
    ∧ g.trex.anim_frame = animationFramesOf g.trex.state
    ∧ 0 ≤ g.trex.curr_frame
    ∧ g.trex.curr_frame < g.trex.anim_frame.len
    ∧ g.trex.anim_frame.len ≤ 10
    ∧ (∃ (frame : Int) (tex : Texture),
        g.trex.anim_frame.frames[g.trex.curr_frame.toNat]? = some frame
        ∧ DrawTRex g = some tex
        ∧ tex.source.x = g.trex.sprite_def.x + frame) := by
  have hok := Reachable_frameOk G g h
  obtain ⟨h1, h2, h3, h4⟩ := hok
  refine ⟨?_, h1, h2, h3, h4, DrawTRex_defined g ⟨h1, h2, h3, h4⟩⟩
  rw [h1]
  exact animationFramesOf_table _

/-- The game `crashedInDropGame` is reachable. -/
theorem crashedInDropGame_reachable : Reachable sampleGlobals crashedInDropGame :=
  Reachable.set_state T_REX_CRASHED
    (Reachable.update jumpDuckEnv 5 none (Reachable.init idleEnv blankGame))

/-- C16 at the game `crashedInDropGame`, reached by `InitTRex`, one `UpdateTRex`
and one `SetTRexState`. -/
theorem C16_animation_frame_in_range_witness :
    Reachable sampleGlobals crashedInDropGame
    ∧ trex_animation_frames[crashedInDropGame.trex.state.toNat]?
        = some crashedInDropGame.trex.anim_frame
    ∧ crashedInDropGame.trex.anim_frame = animationFramesOf crashedInDropGame.trex.state
    ∧ 0 ≤ crashedInDropGame.trex.curr_frame
    ∧ crashedInDropGame.trex.curr_frame < crashedInDropGame.trex.anim_frame.len
    ∧ crashedInDropGame.trex.anim_frame.len ≤ 10
    ∧ (∃ (frame : Int) (tex : Texture),
        crashedInDropGame.trex.anim_frame.frames[crashedInDropGame.trex.curr_frame.toNat]?
          = some frame
        ∧ DrawTRex crashedInDropGame = some tex
        ∧ tex.source.x = crashedInDropGame.trex.sprite_def.x + frame) :=
  ⟨crashedInDropGame_reachable,
    C16_animation_frame_in_range sampleGlobals crashedInDropGame crashedInDropGame_reachable⟩

/-! ## The collision set and the frame -/

/-- Outside the ducking state, with the width 44 and the height 47 set by
`InitTRex`, every rectangle of the collision set lies inside the frame. -/
theorem upright_hurtboxes_inside_frame (g : Game) (hs : g.trex.state ≠ T_REX_DUCKING)
    (hw : g.trex.width = 44) (hh : g.trex.height = 47) :
    ∀ i : Nat, (i : Int) < (GetTRexCollisionSet g).len →
      (GetTRexFrame g).x ≤ ((GetTRexCollisionSet g).rects.getD i zeroRect).x
      ∧ (GetTRexFrame g).y ≤ ((GetTRexCollisionSet g).rects.getD i zeroRect).y
      ∧ ((GetTRexCollisionSet g).rects.getD i zeroRect).x
          + ((GetTRexCollisionSet g).rects.getD i zeroRect).width
          ≤ (GetTRexFrame g).x + (GetTRexFrame g).width
      ∧ ((GetTRexCollisionSet g).rects.getD i zeroRect).y
          + ((GetTRexCollisionSet g).rects.getD i zeroRect).height
          ≤ (GetTRexFrame g).y + (GetTRexFrame g).height := by
  intro i hi
  simp only [GetTRexCollisionSet, hs, if_false, collisionSetAt, trex_collision_sets,
    List.getD_cons_zero, List.getD_cons_succ] at hi
  have h6 : i < 6 := by omega
  interval_cases i <;>
    simp [GetTRexCollisionSet, GetTRexFrame, hs, hw, hh, collisionSetAt, trex_collision_sets,
      translateRects] <;>
    omega

/-- C17 fails while ducking: in the sample game landed ducking at `pos = (50, 93)`
the frame is `{50, 93, 44, 47}`, with right edge 94, while the single rectangle
of the collision set is `{51, 111, 55, 25}`, with right edge 106, so the hurtbox
is not inside the frame; `DrawTRex` draws that pose 59 wide. -/
theorem C17_ducking_hurtbox_exceeds_frame :
    Reachable sampleGlobals duckedGame
    ∧ duckedGame.trex.state = T_REX_DUCKING
    ∧ GetTRexFrame duckedGame = { x := 50, y := 93, width := 44, height := 47 }
    ∧ (GetTRexCollisionSet duckedGame).len = 1
    ∧ (GetTRexCollisionSet duckedGame).rects.getD 0 zeroRect
        = { x := 51, y := 111, width := 55, height := 25 }
    ∧ ¬ (((GetTRexCollisionSet duckedGame).rects.getD 0 zeroRect).x
          + ((GetTRexCollisionSet duckedGame).rects.getD 0 zeroRect).width
          ≤ (GetTRexFrame duckedGame).x + (GetTRexFrame duckedGame).width)
    ∧ (DrawTRex duckedGame).map (fun tex => tex.destination.width) = some 59 := by
  refine ⟨?_, ?_⟩
  · unfold duckedGame quickRunTicks
    rw [gameAfter_cons_succ, gameAfter_zero]
    exact Reachable.update jumpDuckEnv 16 (some 7) (Reachable.init idleEnv blankGame)
  · refine ⟨?_, ?_, ?_, ?_, ?_, ?_⟩
    · with_unfolding_all decide
    · with_unfolding_all decide
    · with_unfolding_all decide
    · with_unfolding_all decide
    · with_unfolding_all decide
    · with_unfolding_all decide

/-! ## The animation timer -/

/-- Within the range of `int` the 32-bit wrap changes nothing. -/
theorem wrapInt32_of_range (z : Int) (hlo : -2 ^ 31 ≤ z) (hhi : z < 2 ^ 31) :
    wrapInt32 z = z := by
  unfold wrapInt32
  rw [Int.emod_eq_of_lt (by omega) (by omega)]
  omega

/-- C18, amended: for a character with `0 <= curr_frame < anim_frame.len` and a
`delta_time` for which `time + delta_time` is within the range of `int`
(`time + delta_time < 2^31`), `UpdateAnimationFrames` adds `delta_time` to
`time`; if the sum is at least `anim_frame.ms_per_frame` it sets `curr_frame` to
`(curr_frame + 1) mod anim_frame.len` and `time` to 0, otherwise it keeps
`curr_frame` and stores the sum in `time`; no other field changes. -/
theorem C18_animation_timer_without_wrap (dt : Nat) (g : Game)
    (h0 : 0 ≤ g.trex.curr_frame) (h1 : g.trex.curr_frame < g.trex.anim_frame.len)
    (hlo : -2 ^ 31 ≤ g.trex.time) (hhi : g.trex.time + (dt : Int) < 2 ^ 31) :
    (g.trex.anim_frame.ms_per_frame ≤ ((g.trex.time + (dt : Int) : Int) : ℚ) →
        UpdateAnimationFrames dt g
          = { g with trex :=
                { g.trex with
                  curr_frame := (g.trex.curr_frame + 1) % g.trex.anim_frame.len
                  time := 0 } })
    ∧ (¬ g.trex.anim_frame.ms_per_frame ≤ ((g.trex.time + (dt : Int) : Int) : ℚ) →
        UpdateAnimationFrames dt g
          = { g with trex := { g.trex with time := g.trex.time + (dt : Int) } }) := by
  have hw : wrapInt32 (g.trex.time + (dt : Int)) = g.trex.time + (dt : Int) :=
    wrapInt32_of_range _ (by omega) hhi
  constructor
  · intro hge
    unfold UpdateAnimationFrames
    simp only [hw, ge_iff_le, hge, if_true]
    by_cases hl : g.trex.curr_frame = g.trex.anim_frame.len - 1
    · have hm : (g.trex.curr_frame + 1) % g.trex.anim_frame.len = 0 := by
        rw [hl]; simp
      rw [if_pos hl, hm]
    · have hm : (g.trex.curr_frame + 1) % g.trex.anim_frame.len = g.trex.curr_frame + 1 :=
        Int.emod_eq_of_lt (by omega) (by omega)
      rw [if_neg hl, hm]
  · intro hlt
    unfold UpdateAnimationFrames
    simp only [hw, ge_iff_le, hlt, if_false]

/-- C18 at the freshly initialised sample game (`time = 0`, frame 1 of the two
waiting frames, 333 ms per frame) with `delta_time = 400`. -/
theorem C18_animation_timer_without_wrap_witness :
    0 ≤ sampleGame.trex.curr_frame
    ∧ sampleGame.trex.curr_frame < sampleGame.trex.anim_frame.len
    ∧ -2 ^ 31 ≤ sampleGame.trex.time
    ∧ sampleGame.trex.time + ((400 : Nat) : Int) < 2 ^ 31
    ∧ (sampleGame.trex.anim_frame.ms_per_frame
          ≤ ((sampleGame.trex.time + ((400 : Nat) : Int) : Int) : ℚ) →
        UpdateAnimationFrames 400 sampleGame
          = { sampleGame with trex :=
                { sampleGame.trex with
                  curr_frame :=
                    (sampleGame.trex.curr_frame + 1) % sampleGame.trex.anim_frame.len
                  time := 0 } })
    ∧ (¬ sampleGame.trex.anim_frame.ms_per_frame
          ≤ ((sampleGame.trex.time + ((400 : Nat) : Int) : Int) : ℚ) →
        UpdateAnimationFrames 400 sampleGame
          = { sampleGame with trex :=
                { sampleGame.trex with time := sampleGame.trex.time + ((400 : Nat) : Int) } }) :=
  ⟨by decide, by decide, by decide, by decide,
    C18_animation_timer_without_wrap 400 sampleGame (by decide) (by decide) (by decide)
      (by decide)⟩

/-- C18 as stated fails when the 32-bit sum wraps: from `time = 0`, frame 1 of the
two waiting frames, with `delta_time = 2^31` the sum `2147483648` is at least the
frame duration 333, but the value stored in the `int` is `-2147483648`, the
comparison fails, the frame stays 1 and `time` is left at `-2147483648`. -/
theorem C18_counterexample_sum_wraps :
    0 ≤ sampleGame.trex.curr_frame
    ∧ sampleGame.trex.curr_frame < sampleGame.trex.anim_frame.len
    ∧ sampleGame.trex.anim_frame.ms_per_frame
        ≤ ((sampleGame.trex.time + ((2147483648 : Nat) : Int) : Int) : ℚ)
    ∧ (UpdateAnimationFrames 2147483648 sampleGame).trex.curr_frame = 1
    ∧ (UpdateAnimationFrames 2147483648 sampleGame).trex.time = -2147483648
    ∧ ¬ ((UpdateAnimationFrames 2147483648 sampleGame).trex.curr_frame
            = (sampleGame.trex.curr_frame + 1) % sampleGame.trex.anim_frame.len
          ∧ (UpdateAnimationFrames 2147483648 sampleGame).trex.time = 0) := by
  with_unfolding_all decide

/-! ## The blink delay stays in range -/

/-- For a non-negative value of `rand`, `SetBlinkDelay` stores a delay between
1000 and `BLINK_TIMING - 1`. -/
theorem SetBlinkDelay_range (e : Env) (g : Game) (hr : 0 ≤ e.rand) :
    1000 ≤ (SetBlinkDelay e g).trex.blink_delay
    ∧ (SetBlinkDelay e g).trex.blink_delay < BLINK_TIMING := by
  have hm : Int.tmod e.rand (BLINK_TIMING - 1000) = e.rand % 6000 :=
    Int.tmod_eq_emod hr (by decide)
  have h1 : 0 ≤ e.rand % 6000 := Int.emod_nonneg _ (by decide)
  have h2 : e.rand % 6000 < 6000 := Int.emod_lt_of_pos _ (by decide)
  show 1000 ≤ 1000 + Int.tmod e.rand (BLINK_TIMING - 1000)
    ∧ 1000 + Int.tmod e.rand (BLINK_TIMING - 1000) < BLINK_TIMING
  rw [hm]
  unfold BLINK_TIMING
  omega

/-- The function `SetTRexState` keeps the blink delay. -/
theorem SetTRexState_blink_delay (s : TRexState) (g : Game) :
    (SetTRexState s g).trex.blink_delay = g.trex.blink_delay := by
  unfold SetTRexState
  simp only []
  split_ifs
  · split <;> rfl
  · rfl

/-- The function `ResetTRex` keeps the blink delay. -/
theorem ResetTRex_blink_delay (e : Env) (g : Game) :
    (ResetTRex e g).trex.blink_delay = g.trex.blink_delay := by
  unfold ResetTRex
  simp only []
  split_ifs <;> rw [SetTRexState_blink_delay]

/-- The function `EndJump` keeps the blink delay. -/
theorem EndJump_blink_delay (G : Globals) (g : Game) :
    (EndJump G g).trex.blink_delay = g.trex.blink_delay := by
  unfold EndJump
  split_ifs <;> rfl

/-- The function `HandleControls` keeps the blink delay. -/
theorem HandleControls_blink_delay (G : Globals) (e : Env) (g : Game) :
    (HandleControls G e g).trex.blink_delay = g.trex.blink_delay := by
  unfold HandleControls
  simp only []
  refine ite_preserves (fun y => y.trex.blink_delay = g.trex.blink_delay) _ (ResetTRex e)
    (fun _ hx => (ResetTRex_blink_delay e _).trans hx) ?_
  refine ite_preserves (fun y => y.trex.blink_delay = g.trex.blink_delay) _
    (SetTRexState T_REX_DUCKING) (fun _ hx => (SetTRexState_blink_delay _ _).trans hx) ?_
  refine ite_preserves (fun y => y.trex.blink_delay = g.trex.blink_delay) _ SetSpeedDrop
    (fun _ hx => hx) ?_
  refine ite_preserves (fun y => y.trex.blink_delay = g.trex.blink_delay) _ (EndJump G)
    (fun _ hx => (EndJump_blink_delay G _).trans hx) ?_
  exact ite_preserves (fun y => y.trex.blink_delay = g.trex.blink_delay) _ (StartJump G)
    (fun _ hx => (SetTRexState_blink_delay T_REX_JUMPING _).trans hx) rfl

/-- The function `UpdateAnimationFrames` keeps the blink delay. -/
theorem UpdateAnimationFrames_blink_delay (dt : Nat) (g : Game) :
    (UpdateAnimationFrames dt g).trex.blink_delay = g.trex.blink_delay := by
  unfold UpdateAnimationFrames
  simp only []
  split_ifs <;> rfl

/-- The function `UpdateJump` keeps the blink delay. -/
theorem UpdateJump_blink_delay (G : Globals) (e : Env) (dt : Nat) (g : Game) :
    (UpdateJump G e dt g).trex.blink_delay = g.trex.blink_delay := by
  have hp : (UpdateJump_physics G dt g).trex.blink_delay = g.trex.blink_delay := by
    unfold UpdateJump_physics
    simp only []
    split_ifs <;> rfl
  unfold UpdateJump UpdateJump_checks
  simp only []
  refine ite_preserves (fun y => y.trex.blink_delay = g.trex.blink_delay) _ (ResetTRex e)
    (fun _ hx => (ResetTRex_blink_delay e _).trans hx) ?_
  refine ite_preserves (fun y => y.trex.blink_delay = g.trex.blink_delay) _ (EndJump G)
    (fun _ hx => (EndJump_blink_delay G _).trans hx) ?_
  exact ite_preserves (fun y => y.trex.blink_delay = g.trex.blink_delay) _
    (fun y => { y with trex := { y.trex with reached_min_height := true } })
    (fun _ hx => hx) hp

/-- With a non-negative value of `rand`, `Blink` keeps the blink delay in range. -/
theorem Blink_blinkDelayOk (e : Env) (time : Int) (g : Game) (hr : 0 ≤ e.rand)
    (h : BlinkDelayOk g) : BlinkDelayOk (Blink e time g) := by
  obtain ⟨r1, r2⟩ := SetBlinkDelay_range e
    { g with trex := { g.trex with curr_frame := 0 } } hr
  have r3 : (SetBlinkDelay e { g with trex := { g.trex with curr_frame := 0 } }).trex.blink_delay
      ≤ 6999 := by
    unfold BLINK_TIMING at r2
    omega
  unfold Blink
  simp only []
  split_ifs
  · exact ⟨r1, r3⟩
  · exact h
  · exact h

/-- With a non-negative value of `rand`, `UpdateTRex` without a new callback
keeps the blink delay in range. -/
theorem UpdateTRex_none_blinkDelayOk (G : Globals) (e : Env) (dt : Nat) (g : Game)
    (hr : 0 ≤ e.rand) (h : BlinkDelayOk g) : BlinkDelayOk (UpdateTRex G e dt none g) := by
  rw [UpdateTRex_none]
  have h3 : BlinkDelayOk (UpdateAnimationFrames dt (HandleControls G e g)) := by
    unfold BlinkDelayOk
    rw [UpdateAnimationFrames_blink_delay, HandleControls_blink_delay]
    exact h
  have h4 : BlinkDelayOk
      (if (UpdateAnimationFrames dt (HandleControls G e g)).trex.state = T_REX_WAITING
        then Blink e e.ticks (UpdateAnimationFrames dt (HandleControls G e g))
        else UpdateAnimationFrames dt (HandleControls G e g)) := by
    split_ifs
    · exact Blink_blinkDelayOk e e.ticks _ hr h3
    · exact h3
  generalize (if (UpdateAnimationFrames dt (HandleControls G e g)).trex.state = T_REX_WAITING
        then Blink e e.ticks (UpdateAnimationFrames dt (HandleControls G e g))
        else UpdateAnimationFrames dt (HandleControls G e g)) = g4 at h4 ⊢
  split_ifs
  · unfold BlinkDelayOk
    rw [UpdateJump_blink_delay]
    exact h4
  · exact h4

/-- With non-negative values of `rand`, any run of `UpdateTRex` calls keeps the
blink delay in range. -/
theorem runTicks_blinkDelayOk (G : Globals) (ks : List Tick) :
    ∀ g : Game, BlinkDelayOk g → (∀ k ∈ ks, 0 ≤ k.env.rand) →
      BlinkDelayOk (runTicks G g ks) := by
  induction ks with
  | nil => intro g h _; rw [runTicks_nil]; exact h
  | cons k rest ih =>
    intro g h hk
    rw [runTicks_cons]
    apply ih _ _ (fun k1 h1 => hk k1 (List.mem_cons_of_mem k h1))
    have hr := hk k (List.mem_cons_self k rest)
    cases hcb : k.on_started_running with
    | none => exact UpdateTRex_none_blinkDelayOk G k.env k.delta_time g hr h
    | some c =>
      rw [UpdateTRex_some]
      exact UpdateTRex_none_blinkDelayOk G k.env k.delta_time _ hr h

/-- C19: for every non-negative value returned by `rand`, `SetBlinkDelay` stores a
`blink_delay` with `1000 <= blink_delay < BLINK_TIMING = 7000`; so in every state
reached from `InitTRex` by `UpdateTRex` calls (all values of `rand` non-negative)
the blink delay lies in `[1000, 6999]`; and every value in that range is stored
for some value of `rand`, one between 0 and 5999. -/
theorem C19_blink_delay_range (G : Globals) (e0 : Env) (g : Game) (ks : List Tick)
    (h0 : 0 ≤ e0.rand) (hks : ∀ k ∈ ks, 0 ≤ k.env.rand) :
    BLINK_TIMING = 7000
    ∧ (∀ (e : Env) (x : Game), 0 ≤ e.rand →
        1000 ≤ (SetBlinkDelay e x).trex.blink_delay
        ∧ (SetBlinkDelay e x).trex.blink_delay < BLINK_TIMING)
    ∧ (1000 ≤ (runTicks G (InitTRex G e0 g) ks).trex.blink_delay
        ∧ (runTicks G (InitTRex G e0 g) ks).trex.blink_delay ≤ 6999)
    ∧ (∀ v : Int, 1000 ≤ v → v ≤ 6999 →
        ∃ r : Int, 0 ≤ r ∧ r ≤ 5999
          ∧ ∀ (e : Env) (x : Game), e.rand = r → (SetBlinkDelay e x).trex.blink_delay = v) := by
  refine ⟨rfl, fun e x hr => SetBlinkDelay_range e x hr, ?_, ?_⟩
  · have hinit : BlinkDelayOk (InitTRex G e0 g) := by
      obtain ⟨r1, r2⟩ := SetBlinkDelay_range e0
        { g with trex := (InitTRex G e0 g).trex } h0
      unfold BLINK_TIMING at r2
      exact ⟨r1, by
        show (1000 : Int) + Int.tmod e0.rand (BLINK_TIMING - 1000) ≤ 6999
        have r2' : (1000 : Int) + Int.tmod e0.rand (BLINK_TIMING - 1000) < 7000 := r2
        omega⟩
    exact runTicks_blinkDelayOk G ks _ hinit hks
  · intro v hlo hhi
    refine ⟨v - 1000, by omega, by omega, ?_⟩
    intro e x he
    show 1000 + Int.tmod e.rand (BLINK_TIMING - 1000) = v
    rw [he, Int.tmod_eq_emod (by omega) (by decide)]
    have hm : (v - 1000) % (BLINK_TIMING - 1000) = v - 1000 :=
      Int.emod_eq_of_lt (by omega) (by unfold BLINK_TIMING; omega)
    rw [hm]
    omega

/-- C19 at the blank game initialised with `rand() = 1234` and run through
`quickRunTicks`, whose calls see `rand() = 0`. -/
theorem C19_blink_delay_range_witness :
    0 ≤ laterEnv.rand
    ∧ (∀ k ∈ quickRunTicks, 0 ≤ k.env.rand)
    ∧ BLINK_TIMING = 7000
    ∧ (∀ (e : Env) (x : Game), 0 ≤ e.rand →
        1000 ≤ (SetBlinkDelay e x).trex.blink_delay
        ∧ (SetBlinkDelay e x).trex.blink_delay < BLINK_TIMING)
    ∧ (1000 ≤ (runTicks sampleGlobals (InitTRex sampleGlobals laterEnv blankGame)
          quickRunTicks).trex.blink_delay
        ∧ (runTicks sampleGlobals (InitTRex sampleGlobals laterEnv blankGame)
          quickRunTicks).trex.blink_delay ≤ 6999)
    ∧ (∀ v : Int, 1000 ≤ v → v ≤ 6999 →
        ∃ r : Int, 0 ≤ r ∧ r ≤ 5999
          ∧ ∀ (e : Env) (x : Game), e.rand = r → (SetBlinkDelay e x).trex.blink_delay = v) :=
  ⟨by decide, by decide,
    C19_blink_delay_range sampleGlobals laterEnv blankGame quickRunTicks (by decide)
      (by decide)⟩

end TRexRunner
